import Mathlib

/-!
Verification of the quickdeck workflow step-execution engine
(`backend/app/server/job_execute_service.py` and `backend/app/executors/`).

The Python code is shallowly embedded: Python dict/list/str/int/bool/None
values are modelled by `PyVal`; the stateful service methods become pure
functions threading explicit state; OS effects (subprocess runs, the
filesystem, the credential table) are passed in as explicit parameters
(an outcome oracle for subprocesses, a list of existing paths for the
filesystem, a list of rows for the credential table).
-/

namespace QuickDeck

/-- Model of a Python value as it occurs in this code base
(JSON-like data: `None`, `bool`, `int`, `str`, `list`, `dict`).
Floats do not occur in the verified code paths and are omitted. -/
inductive PyVal where
  | none : PyVal
  | bool : Bool → PyVal
  | int : Int → PyVal
  | str : String → PyVal
  | list : List PyVal → PyVal
  | dict : List (String × PyVal) → PyVal

/-- Join a list of strings (semantics of Python `"".join`), defined through
the character-list model of `String` so that proofs can unfold it. -/
def strJoin (l : List String) : String :=
  String.mk (List.flatten (l.map String.data))

/-- Python `sep.join(l)`: join with a separator between entries. -/
def strIntercalate (sep : String) (l : List String) : String :=
  strJoin (l.intersperse sep)

mutual

/-- Python `repr` restricted to `PyVal`.  One simplification: `repr` of a
string always uses single quotes (Python switches to double quotes when the
string itself contains a single quote; no verified property depends on
that corner). -/
def pyRepr : PyVal → String
  | .none => "None"
  | .bool true => "True"
  | .bool false => "False"
  | .int n => toString n
  | .str s => "\x27" ++ s ++ "\x27"
  | .list xs => "[" ++ strIntercalate ", " (pyReprList xs) ++ "]"
  | .dict kvs => "\x7b" ++ strIntercalate ", " (pyReprKVs kvs) ++ "\x7d"

/-- Applies `repr` to each element of a list. -/
def pyReprList : List PyVal → List String
  | [] => []
  | v :: vs => pyRepr v :: pyReprList vs

/-- Applies `repr` to each `key: value` entry of a dict. -/
def pyReprKVs : List (String × PyVal) → List String
  | [] => []
  | (k, v) :: vs => ("\x27" ++ k ++ "\x27: " ++ pyRepr v) :: pyReprKVs vs

end

/-- Python `str()` on a `PyVal`: the string itself for `str`, `repr`
otherwise (`str` and `repr` agree on None/bool/int/list/dict). -/
def pyStr : PyVal → String
  | .str s => s
  | v => pyRepr v

/-- Python truthiness of a `PyVal` (`if value:`). -/
def pyTruthy : PyVal → Bool
  | .none => false
  | .bool b => b
  | .int n => n != 0
  | .str s => s != ""
  | .list xs => !xs.isEmpty
  | .dict kvs => !kvs.isEmpty

/-- Python `d.get(key)` on a dict (`None` when `d` is not a dict or the
key is absent). -/
def dget (v : PyVal) (key : String) : Option PyVal :=
  match v with
  | .dict kvs => (kvs.find? (fun kv => kv.1 == key)).map (fun kv => kv.2)
  | _ => Option.none

/-- Python `d.get(key, default)` on a dict. -/
def dgetD (v : PyVal) (key : String) (default : PyVal) : PyVal :=
  match dget v key with
  | some w => w
  | Option.none => default

/-- Python `d.get(key, "")` read as a string after `str(...)` was not applied:
the executors read their configuration with `extension.get(k, "")` and
treat any falsy value as missing. -/
def dgetStr (v : PyVal) (key : String) : String :=
  match dget v key with
  | some (.str s) => s
  | _ => ""

/-! ### HTML escaping and the output renderers
(`JobExecuteService._generate_text_html`, `_generate_table_html`,
`_generate_error_html`). -/

/-- One character of Python `html.escape` (with its default
`quote=True`): the five special characters become entities, every other
character stays.  `html.escape` applies sequential whole-string
replacements with `&` first, which is equivalent to this per-character
map because no entity introduces a character that a later replacement
rewrites. -/
def escapeChar (c : Char) : String :=
  if c = '&' then "&amp;"
  else if c = '<' then "&lt;"
  else if c = '>' then "&gt;"
  else if c = '"' then "&quot;"
  else if c = '\x27' then "&#x27;"
  else String.singleton c

/-- Python `html.escape(s)` (default `quote=True`). -/
def htmlEscape (s : String) : String :=
  strJoin (s.data.map escapeChar)

/-- One character of `s.replace("\n", "<br>")`. -/
def brChar (c : Char) : String :=
  if c = '\n' then "<br>" else String.singleton c

/-- Python `s.replace("\n", "<br>")`: a single-character pattern, hence a
per-character map. -/
def nlToBr (s : String) : String :=
  strJoin (s.data.map brChar)

/-- Model of `JobExecuteService._generate_text_html`: escape, newline to `<br>`,
wrap in a div. -/
def generate_text_html (text : String) : String :=
  "<div>" ++ nlToBr (htmlEscape text) ++ "</div>"

/-- Model of `JobExecuteService._generate_error_html`: escape, newline to `<br>`,
wrap in a red div. -/
def generate_error_html (error_message : String) : String :=
  "<div style=\x27color: red;\x27>" ++ nlToBr (htmlEscape error_message) ++ "</div>"

/-! ### A model of `json.loads`
`_generate_table_html` calls `json.loads` when the dataset is a string.
The model parses the JSON fragment used by this code base (null, booleans,
integers, escape-free strings, arrays, objects); inputs outside the
fragment are modelled as a parse failure. -/

/-- JSON insignificant whitespace. -/
def isJsonWs (c : Char) : Bool :=
  c = ' ' || c = '\n' || c = '\t' || c = '\r'

/-- Drop leading JSON whitespace. -/
def skipWs (cs : List Char) : List Char :=
  cs.dropWhile isJsonWs

/-- Scan a JSON string body up to the closing quote (no escape support:
a backslash fails the parse). -/
def scanStr : List Char → Option (List Char × List Char)
  | [] => Option.none
  | c :: rest =>
    if c = '"' then some ([], rest)
    else if c = '\\' then Option.none
    else match scanStr rest with
      | some (s, r) => some (c :: s, r)
      | Option.none => Option.none

/-- Scan a maximal run of decimal digits. -/
def scanDigits (cs : List Char) : List Char × List Char :=
  (cs.takeWhile Char.isDigit, cs.dropWhile Char.isDigit)

/-- Digits to a natural number. -/
def digitsToNat (ds : List Char) : Nat :=
  ds.foldl (fun acc c => acc * 10 + (c.toNat - 48)) 0

mutual

/-- Parse one JSON value (fuel-indexed recursive descent). -/
def parseJson : Nat → List Char → Option (PyVal × List Char)
  | 0, _ => Option.none
  | Nat.succ fuel, cs0 =>
    match skipWs cs0 with
    | 'n' :: 'u' :: 'l' :: 'l' :: r => some (.none, r)
    | 't' :: 'r' :: 'u' :: 'e' :: r => some (.bool true, r)
    | 'f' :: 'a' :: 'l' :: 's' :: 'e' :: r => some (.bool false, r)
    | '"' :: r =>
      match scanStr r with
      | some (s, r2) => some (.str (String.mk s), r2)
      | Option.none => Option.none
    | '[' :: r =>
      (match skipWs r with
       | ']' :: r2 => some (.list [], r2)
       | cs2 => match parseArrItems fuel cs2 with
         | some (items, r2) => some (.list items, r2)
         | Option.none => Option.none)
    | '\x7b' :: r =>
      (match skipWs r with
       | '\x7d' :: r2 => some (.dict [], r2)
       | cs2 => match parseObjItems fuel cs2 with
         | some (items, r2) => some (.dict items, r2)
         | Option.none => Option.none)
    | '-' :: r =>
      (match scanDigits r with
       | ([], _) => Option.none
       | (ds, r2) => some (.int (-(digitsToNat ds : Int)), r2))
    | c :: r =>
      if c.isDigit then
        match scanDigits (c :: r) with
        | (ds, r2) => some (.int (digitsToNat ds : Int), r2)
      else Option.none
    | [] => Option.none

/-- Parse the comma-separated items of a JSON array, consuming the
closing bracket. -/
def parseArrItems : Nat → List Char → Option (List PyVal × List Char)
  | 0, _ => Option.none
  | Nat.succ fuel, cs =>
    match parseJson fuel cs with
    | some (v, r) =>
      (match skipWs r with
       | ',' :: r2 =>
         (match parseArrItems fuel r2 with
          | some (vs, r3) => some (v :: vs, r3)
          | Option.none => Option.none)
       | ']' :: r2 => some ([v], r2)
       | _ => Option.none)
    | Option.none => Option.none

/-- Parse the comma-separated `"key": value` items of a JSON object,
consuming the closing brace. -/
def parseObjItems : Nat → List Char → Option (List (String × PyVal) × List Char)
  | 0, _ => Option.none
  | Nat.succ fuel, cs =>
    match skipWs cs with
    | '"' :: r =>
      (match scanStr r with
       | some (k, r2) =>
         (match skipWs r2 with
          | ':' :: r3 =>
            (match parseJson fuel r3 with
             | some (v, r4) =>
               (match skipWs r4 with
                | ',' :: r5 =>
                  (match parseObjItems fuel r5 with
                   | some (kvs, r6) => some ((String.mk k, v) :: kvs, r6)
                   | Option.none => Option.none)
                | '\x7d' :: r5 => some ([(String.mk k, v)], r5)
                | _ => Option.none)
             | Option.none => Option.none)
          | _ => Option.none)
       | Option.none => Option.none)
    | _ => Option.none

end

/-- Model of `json.loads` on the modelled JSON fragment: parse one value and
require only whitespace to remain. -/
def jsonLoads (s : String) : Option PyVal :=
  match parseJson (s.data.length + 1) s.data with
  | some (v, rest) => if (skipWs rest).isEmpty then some v else Option.none
  | Option.none => Option.none

/-! ### The table renderer `JobExecuteService._generate_table_html`. -/

/-- The fixed `<table ...>` opening tag of `_generate_table_html`. -/
def tableOpen : String :=
  "<table border=\x271\x27 style=\x27border-collapse: collapse; width: 100%;\x27>"

/-- One `<th>` cell (headers are strings, and `str` of a string is
itself). -/
def thCell (h : String) : String :=
  "<th style=\x27padding: 8px; text-align: left;\x27>" ++ htmlEscape h ++ "</th>"

/-- One `<td>` cell: `html.escape(str(value))`. -/
def tdCell (v : PyVal) : String :=
  "<td style=\x27padding: 8px;\x27>" ++ htmlEscape (pyStr v) ++ "</td>"

/-- One `<tr>` row of the list rendering: a dict row emits one cell per
header via `row.get(header, "")`, any other row a single cell. -/
def rowHtml (headers : List String) (row : PyVal) : String :=
  "<tr>" ++
    (match row with
     | .dict kvs => strJoin (headers.map (fun h => tdCell (dgetD (.dict kvs) h (.str ""))))
     | r => tdCell r) ++
  "</tr>"

/-- The list branch of `_generate_table_html`: headers come from the
first entry when it is a dict, otherwise every entry is wrapped as
`{"值": entry}` under the single header `值`. -/
def tableForList (first : PyVal) (rest : List PyVal) : String :=
  match first with
  | .dict kvs =>
    let headers := kvs.map (fun kv => kv.1)
    tableOpen ++ "<thead><tr>" ++ strJoin (headers.map thCell) ++ "</tr></thead>" ++
      "<tbody>" ++ strJoin ((first :: rest).map (rowHtml headers)) ++ "</tbody>" ++ "</table>"
  | f =>
    let wrapped := (f :: rest).map (fun item => PyVal.dict [("值", item)])
    tableOpen ++ "<thead><tr>" ++ strJoin (["值"].map thCell) ++ "</tr></thead>" ++
      "<tbody>" ++ strJoin (wrapped.map (rowHtml ["值"])) ++ "</tbody>" ++ "</table>"

/-- The dict branch of `_generate_table_html`: a two-column key/value
table. -/
def tableForDict (kvs : List (String × PyVal)) : String :=
  tableOpen ++
    "<thead><tr><th style=\x27padding: 8px; text-align: left;\x27>键</th>" ++
    "<th style=\x27padding: 8px; text-align: left;\x27>值</th></tr></thead>" ++
    "<tbody>" ++
    strJoin (kvs.map (fun kv => "<tr>" ++ tdCell (.str kv.1) ++ tdCell kv.2 ++ "</tr>")) ++
    "</tbody>" ++ "</table>"

/-- Core of `_generate_table_html` after the initial falsy check and the
string/JSON step: list branch, dict branch, and the
`<div>{escape(str(dataset))}</div>` fallback. -/
def tableCore : PyVal → String
  | .list [] => "<div>无数据</div>"
  | .list (x :: xs) => tableForList x xs
  | .dict kvs => tableForDict kvs
  | d => "<div>" ++ htmlEscape (pyStr d) ++ "</div>"

/-- Model of `JobExecuteService._generate_table_html`: falsy datasets render the
no-data placeholder; a string dataset is parsed as JSON (rendered as an
escaped div when parsing fails); lists, dicts and the fallback are
handled by `tableCore`. -/
def generate_table_html (dataset : PyVal) : String :=
  if pyTruthy dataset = false then "<div>无数据</div>"
  else
    match dataset with
    | .str s =>
      (match jsonLoads s with
       | some v => tableCore v
       | Option.none => "<div>" ++ htmlEscape s ++ "</div>")
    | d => tableCore d

/-! ### Data model (`app/models.py`), restricted to the fields the
engine reads. -/

/-- A workflow step (`models.Step`): `step_type` holds the persisted
string value of `StepTypeEnum`. -/
structure Step where
  order : Int
  step_type : String
  extension : PyVal

/-- A declared workflow input (`models.Option`). -/
structure OptionDecl where
  name : String
  option_type : String

/-- A stored, project-scoped credential (`models.Credential`). -/
structure Credential where
  id : Int
  project_id : Int
  credential_type : String
  config : PyVal

/-- A job (`models.Job`), the fields `execute_job` reads. -/
structure Job where
  id : Int
  name : String
  project_id : Int

/-- A workflow (`models.Workflow`), the fields `execute_job` reads. -/
structure Workflow where
  timeout : Int
  retry : Int
  options : List OptionDecl
  steps : List Step

/-- The per-run context dict built by `execute_job` and threaded through
every executor call.  In the Python code the `step_extension` and
`step_type` keys are first inserted inside the step loop; the model
carries them as fields (initially `{}` and `""`). -/
structure Context where
  job_id : Int
  job_name : String
  user_id : Int
  timeout : Int
  retry : Int
  project_id : Int
  credentials_map : List (Int × Credential)
  step_extension : PyVal := .dict []
  step_type : String := ""

/-- The per-run result dict: `{"text": ..., "dataset": ..., "logs": ...}`
with `dataset` initially `None`. -/
structure RunResult where
  text : String
  dataset : Option PyVal
  logs : String

/-- The `JobExecution` row written once per recorded run (the fields the
engine sets; `executed_at` is the database default). -/
structure JobExecution where
  job_id : Int
  user_id : Int
  execution_type : String
  status : String
  output_text : String
  error_message : Option String

/-! ### Executor registry (`app/executors/factory.py`). -/

/-- The executor instances the factory dictionary maps to.  The source
registers exactly three: `CommandExecutor`, `ShellScriptExecutor` and
`PythonScriptExecutor` (`CurlExecutor` and `MysqlExecutor` exist in
`app/executors/` but are absent from `ExecutorFactory._executors`). -/
inductive ExecutorKind where
  | command
  | shell_script
  | python_script
deriving DecidableEq

/-- Python `str.lower()` (the persisted step-type values are ASCII, on
which per-character lowering coincides with `str.lower`). -/
def pyLower (s : String) : String :=
  String.mk (s.data.map Char.toLower)

/-- Model of `ExecutorFactory.get_executor`: lowercase the requested step type,
look it up in the static dictionary, raise
`ValueError("不支持的步骤类型: ...")` on a miss. -/
def get_executor (step_type : String) : Except String ExecutorKind :=
  let step_type_lower := pyLower step_type
  if step_type_lower = "command" then .ok .command
  else if step_type_lower = "shell_script" then .ok .shell_script
  else if step_type_lower = "python_script" then .ok .python_script
  else .error ("不支持的步骤类型: " ++ step_type)

/-! ### File-argument resolution
(`execute_job` lines 37-77 and `_save_file_to_temp`). -/

/-- Model of `_save_file_to_temp`: extract `response.path` from an Ant-Design
upload object, trying `fileList[0].response.path`, then
`file.response.path`, then `response.path`; each scheme succeeds only if
the extracted path is truthy and exists on the filesystem `fs`.  When no
scheme succeeds the method raises `ValueError`. -/
def save_file_to_temp (fs : List String) (file_obj : PyVal) (_param_name : String) :
    Except String String :=
  let try_resp : PyVal → Option String := fun node =>
    match dget node "response" with
    | some resp =>
      (match dget resp "path" with
       | some (.str p) => if p ≠ "" ∧ p ∈ fs then some p else Option.none
       | _ => Option.none)
    | Option.none => Option.none
  let scheme1 : Option String :=
    match dget file_obj "fileList" with
    | some (.list (first :: _)) => try_resp first
    | _ => Option.none
  let scheme2 : Option String :=
    match dget file_obj "file" with
    | some (f@(.dict _)) => try_resp f
    | _ => Option.none
  match scheme1 with
  | some p => .ok p
  | Option.none =>
    match scheme2 with
    | some p => .ok p
    | Option.none =>
      match try_resp file_obj with
      | some p => .ok p
      | Option.none =>
        .error ("无法处理文件 \x27" ++ pyStr (dgetD file_obj "name" (.str "未知文件")) ++
          "\x27。请确保文件已通过 Upload 组件成功上传到服务器（action=\x27/api/upload\x27）。" ++
          "如果问题仍然存在，请检查上传接口是否正常工作。")

/-- One argument of the file-processing loop: a string value must be an
existing path; a dict value goes through `save_file_to_temp` and its
extracted path is also appended to `temp_files`; any other value raises.
Returns the processed value and the temp files this argument added. -/
def processOneFileArg (fs : List String) (key : String) (v : PyVal) :
    Except String (PyVal × List String) :=
  match v with
  | .str p =>
    if p ∈ fs then .ok (.str p, [])
    else .error ("文件参数 \x27" ++ key ++ "\x27 的路径不存在: " ++ p)
  | .dict kvs =>
    (match save_file_to_temp fs (.dict kvs) key with
     | .ok p => .ok (.str p, [p])
     | .error e => .error e)
  | _ => .error ("文件参数 \x27" ++ key ++ "\x27 必须是字符串路径或文件对象")

/-- The file-argument loop of `execute_job`: arguments bound to
`file`-typed options are resolved in iteration order; on the first
failure the `ValueError` propagates, carrying (for leak accounting) the
temp files collected so far — this happens before the `try/finally`
block, so those files are never cleaned up.  On success, returns the
processed arguments together with all collected temp files. -/
def processFileArgs (fs : List String) (fileOpts : List String) :
    List (String × PyVal) → Except (String × List String) (List (String × PyVal) × List String)
  | [] => .ok ([], [])
  | (k, v) :: rest =>
    if k ∈ fileOpts then
      match processOneFileArg fs k v with
      | .error e => .error (e, [])
      | .ok (v2, tmps) =>
        (match processFileArgs fs fileOpts rest with
         | .ok (pr, tmp2) => .ok ((k, v2) :: pr, tmps ++ tmp2)
         | .error (e, tmp2) => .error (e, tmps ++ tmp2))
    else
      match processFileArgs fs fileOpts rest with
      | .ok (pr, tmp2) => .ok ((k, v) :: pr, tmp2)
      | .error e => .error e

/-- The names of the workflow options whose type is `file`
(`file_options` in the source). -/
def fileOptionNames (opts : List OptionDecl) : List String :=
  (opts.filter (fun o => o.option_type == "file")).map (fun o => o.name)

/-! ### Credential resolution (`execute_job` lines 79-97). -/

/-- Python `str(value).isdigit()` followed by `int(value)` on the values the
source accepts (`isinstance(value, (int, str))`): a non-negative int, or
a non-empty all-digit string. -/
def pyDigitInt : PyVal → Option Int
  | .int n => if 0 ≤ n then some n else Option.none
  | .str s =>
    if s ≠ "" ∧ s.data.all Char.isDigit then some ((digitsToNat s.data : Nat) : Int)
    else Option.none
  | _ => Option.none

/-- The candidate credential ids: for each argument whose value is an
integer-like, one id per declared `credential`-typed option with the same
name (`execute_job` lines 83-89). -/
def credentialIds (opts : List OptionDecl) (args : List (String × PyVal)) : List Int :=
  (args.map (fun kv =>
    match pyDigitInt kv.2 with
    | some n =>
      (opts.filter (fun o => o.name == kv.1 && o.option_type == "credential")).map (fun _ => n)
    | Option.none => [])).flatten

/-- The batch credential query (`db.query(Credential).filter(id.in_(ids),
project_id == job.project_id)`) followed by building `{cred.id: cred}`.
`db` models the credential table. -/
def loadCredentialsMap (db : List Credential) (project_id : Int)
    (opts : List OptionDecl) (args : List (String × PyVal)) : List (Int × Credential) :=
  let ids := credentialIds opts args
  if ids.isEmpty then []
  else ((db.filter (fun c => ids.contains c.id && c.project_id == project_id)).map
    (fun c => (c.id, c)))

/-! ### The workflow runner (`JobExecuteService.execute_job`). -/

/-- The behaviour of one executor call.  Executors spawn subprocesses,
so the runner model is parameterised by an oracle giving, for the
resolved executor and the current context/result, the context and result
after the call and `some message` when the call raised.  Because the
Python executors mutate `result` in place before raising, the oracle
reports the mutated result also on failure. -/
def ExecOracle :=
  ExecutorKind → Context → RunResult → Context × RunResult × Option String

/-- The per-step context update (`context["step_extension"] =
step.extension or {}; context["step_type"] = step.step_type.value`). -/
def setStepCtx (ctx : Context) (s : Step) : Context :=
  { ctx with
    step_extension := if pyTruthy s.extension then s.extension else .dict []
    step_type := s.step_type }

/-- The step loop of `execute_job`: set the step fields on the context,
resolve the executor, run it; the first raise aborts the loop.  The
fourth component records which steps had their executor invoked, in
order. -/
def runSteps (exec : ExecOracle) :
    Context → RunResult → List Step → Context × RunResult × Option String × List Step
  | ctx, r, [] => (ctx, r, Option.none, [])
  | ctx, r, s :: rest =>
    let ctx1 := setStepCtx ctx s
    match get_executor s.step_type with
    | .error msg => (ctx1, r, some msg, [])
    | .ok k =>
      match exec k ctx1 r with
      | (ctx2, r2, some e) => (ctx2, r2, some e, [s])
      | (ctx2, r2, Option.none) =>
        (match runSteps exec ctx2 r2 rest with
         | (c3, r3, e3, tr) => (c3, r3, e3, s :: tr))

/-- The output decision of `execute_job` (lines 135-143): table HTML
when `dataset` is neither `None` nor the empty string, text HTML
otherwise. -/
def render_output (r : RunResult) : String :=
  match r.dataset with
  | Option.none => generate_text_html r.text
  | some (.str "") => generate_text_html r.text
  | some d => generate_table_html d

/-- Everything observable about one `execute_job` call: the
`JobExecution` row it wrote (if any), the returned rendering and error,
the terminal result, the temp files left on disk after the call, and the
steps whose executor was invoked. -/
structure RunOutput where
  record : Option JobExecution
  output : Option String
  error : Option String
  result : RunResult
  leaked : List String
  trace : List Step

/-- The sort key of the step loop: `sorted(workflow.steps, key=lambda s:
s.order)` (Python `sorted` is a stable ascending sort). -/
def stepOrderLE (a b : Step) : Bool :=
  decide (a.order ≤ b.order)

/-- The context dict `execute_job` initialises before the step loop. -/
def initContext (job : Job) (workflow : Workflow) (user_id : Int)
    (credentials_map : List (Int × Credential)) : Context :=
  { job_id := job.id
    job_name := job.name
    user_id := user_id
    timeout := workflow.timeout
    retry := workflow.retry
    project_id := job.project_id
    credentials_map := credentials_map }

/-- The result dict `execute_job` initialises before the step loop. -/
def initResult : RunResult :=
  { text := "", dataset := Option.none, logs := "" }

/-- Model of `JobExecuteService.execute_job` with a database session present
(the claims under verification concern recorded runs; `db` models the
credential table read by the session).

Shape of the source: file-argument resolution and credential loading run
before the `try` block, so a `ValueError` raised there propagates to the
caller with no `JobExecution` written and without reaching the `finally`
that deletes the collected temp files.  Once the `try` block is entered,
both the success and the failure path write exactly one row and the
`finally` deletes every collected temp file (deletion errors are logged
and swallowed; the model treats deletion as succeeding). -/
def execute_job (fs : List String) (db : List Credential) (exec : ExecOracle)
    (job : Job) (workflow : Workflow) (args : List (String × PyVal))
    (user_id : Int) (execution_type : String) : RunOutput :=
  match processFileArgs fs (fileOptionNames workflow.options) args with
  | .error (msg, temp_files) =>
    { record := Option.none
      output := Option.none
      error := some msg
      result := { text := "", dataset := Option.none, logs := "" }
      leaked := temp_files
      trace := [] }
  | .ok (processed_args, _temp_files) =>
    let credentials_map := loadCredentialsMap db job.project_id workflow.options processed_args
    let context := initContext job workflow user_id credentials_map
    let steps := workflow.steps.mergeSort stepOrderLE
    match runSteps exec context initResult steps with
    | (_, result, Option.none, trace) =>
      { record := some
          { job_id := job.id
            user_id := user_id
            execution_type := execution_type
            status := "success"
            output_text := result.text
            error_message := Option.none }
        output := some (render_output result)
        error := Option.none
        result := result
        leaked := []
        trace := trace }
    | (_, result, some e, trace) =>
      { record := some
          { job_id := job.id
            user_id := user_id
            execution_type := execution_type
            status := "failure"
            output_text := result.text
            error_message := some e }
        output := some (generate_error_html e)
        error := some e
        result := result
        leaked := []
        trace := trace }

/-! ### The command executor (`app/executors/command.py`). -/

/-- Captured output of a completed subprocess. -/
structure ProcResult where
  stdout : String
  stderr : String
  returncode : Int

/-- Outcome of a `subprocess.run` call with a timeout: it either
completes (with any return code) or hits the wall-clock limit. -/
inductive ProcOutcome where
  | completed (p : ProcResult)
  | timedOut

/-- Python `str.strip()` whitespace (space, tab, newline, carriage
return, vertical tab, form feed). -/
def isPyWs (c : Char) : Bool :=
  c = ' ' || c = '\t' || c = '\n' || c = '\r' || c = '\x0b' || c = '\x0c'

/-- Python `str.strip()` on the character-list model. -/
def stripChars (l : List Char) : List Char :=
  ((l.dropWhile isPyWs).reverse.dropWhile isPyWs).reverse

/-- Python `s.strip()`. -/
def pyStrip (s : String) : String :=
  String.mk (stripChars s.data)

/-- The stdout-append of `CommandExecutor`/`ShellScriptExecutor`:
`result["text"] = f"{current}\n{output}".strip() if current else output`,
executed only when `output` is truthy. -/
def appendStdout (r : RunResult) (output : String) : RunResult :=
  if output ≠ "" then
    { r with text := if r.text ≠ "" then pyStrip (r.text ++ "\n" ++ output) else output }
  else r

/-- The stderr-append of `CommandExecutor`/`ShellScriptExecutor`:
stderr goes under a `[错误]` marker, with the same strip pattern. -/
def appendStderr (r : RunResult) (error : String) : RunResult :=
  if error ≠ "" then
    { r with text := if r.text ≠ "" then pyStrip (r.text ++ "\n[错误]\n" ++ error)
      else "[错误]\n" ++ error }
  else r

/-- Model of `CommandExecutor.execute`: read the command from the step extension
(empty raises), run it (outcome given by the oracle value `outcome`),
append stdout then stderr to `result.text`, raise on a non-zero return
code (the inner `RuntimeError` is re-wrapped by the executor own
`except Exception` clause, nesting the messages) or on timeout. -/
def commandExecute (outcome : ProcOutcome) (ctx : Context) (r : RunResult) :
    Context × RunResult × Option String :=
  let command := dgetStr ctx.step_extension "command"
  if command = "" then (ctx, r, some "命令不能为空")
  else
    match outcome with
    | .timedOut => (ctx, r, some ("命令执行超时: " ++ command))
    | .completed p =>
      let r2 := appendStderr (appendStdout r p.stdout) p.stderr
      if p.returncode ≠ 0 then
        (ctx, r2, some ("命令执行出错: 命令执行失败，返回码: " ++ toString p.returncode ++
          "\n" ++ p.stderr))
      else (ctx, r2, Option.none)

/-! ### The shell-script executor (`app/executors/shell_script.py`),
with its temporary-file lifecycle made observable. -/

/-- Observable effects of one script-executor call (shell script,
python script or cURL): the updated result, the raised error if any,
and which files the call created and deleted (`script_path` names the
temp file the OS chose). -/
structure ScriptFileEffects where
  result : RunResult
  error : Option String
  created : List String
  deleted : List String

/-- Model of `ShellScriptExecutor.execute`: an empty script raises before the
temp file exists; otherwise the script file is written, the subprocess
runs, and the `finally` clause deletes the file on the success, the
non-zero-return and the timeout path alike. -/
def shellScriptExecute (script_path : String) (outcome : ProcOutcome)
    (ctx : Context) (r : RunResult) : ScriptFileEffects :=
  let script := dgetStr ctx.step_extension "script"
  if script = "" then
    { result := r, error := some "脚本内容不能为空", created := [], deleted := [] }
  else
    match outcome with
    | .timedOut =>
      { result := r
        error := some "脚本执行超时"
        created := [script_path]
        deleted := [script_path] }
    | .completed p =>
      let r2 := appendStderr (appendStdout r p.stdout) p.stderr
      if p.returncode ≠ 0 then
        { result := r2
          error := some ("脚本执行出错: 脚本执行失败，返回码: " ++ toString p.returncode ++
            "\n" ++ p.stderr)
          created := [script_path]
          deleted := [script_path] }
      else
        { result := r2
          error := Option.none
          created := [script_path]
          deleted := [script_path] }

/-! ### The python-script executor (`app/executors/python_script.py`),
with its temporary-file lifecycle made observable. -/

/-- Model of `PythonScriptExecutor.execute`, with the temporary script
file made observable.  An empty script raises
`ValueError("脚本内容不能为空")` before the temp file exists.  The
generated driver source (lines 110-260) is a pure string assembled from
the user script, the arguments and the credentials map; it only
determines the behaviour of the spawned interpreter, which the
`outcome` oracle supplies.  The stdout marker-block parsing and the
return-code handling (lines 285-350) mutate only the result dict and
choose the message of the raised `RuntimeError`; they touch no files
and enter the model as the parameter `parse_output` (returning the
updated result and the raised message, if any).  Once the file is
written, the `finally` clause (lines 358-365) deletes it on the
success, the error and the timeout path alike: a timeout raises
`TimeoutError("脚本执行超时")` from its own `except` clause unwrapped,
while any error raised inside the `try` is re-wrapped by the
`except Exception` clause as `RuntimeError("脚本执行出错: ...")`. -/
def pythonScriptExecute (parse_output : ProcResult → RunResult → RunResult × Option String)
    (script_path : String) (outcome : ProcOutcome)
    (ctx : Context) (r : RunResult) : ScriptFileEffects :=
  let script := dgetStr ctx.step_extension "script"
  if script = "" then
    { result := r, error := some "脚本内容不能为空", created := [], deleted := [] }
  else
    match outcome with
    | .timedOut =>
      { result := r
        error := some "脚本执行超时"
        created := [script_path]
        deleted := [script_path] }
    | .completed p =>
      match parse_output p r with
      | (r2, some e) =>
        { result := r2
          error := some ("脚本执行出错: " ++ e)
          created := [script_path]
          deleted := [script_path] }
      | (r2, Option.none) =>
        { result := r2
          error := Option.none
          created := [script_path]
          deleted := [script_path] }

/-! ### Template rendering in the cURL executor
(`app/executors/curl.py`, lines 138-149).

`CurlExecutor.execute` renders the configured command with
`jinja2.Template(curl_template).render(**args)`.  The model covers the
template fragment this code base uses: literal text and `\x7b\x7b name \x7d\x7d`
variable substitutions.  the jinja2 default `Undefined` renders a missing
variable as the empty string; only template-syntax errors (e.g. an
unclosed substitution) raise, and the executor wraps them in
`ValueError("渲染 CURL 命令失败: ...")`. -/

/-- One piece of a parsed template. -/
inductive TmplPart where
  | lit (s : String)
  | var (name : String)

/-- Model of `Template.render(**args)` with the default `Undefined`: a present
variable is substituted via `str()`, a missing one renders as `""`. -/
def renderParts (parts : List TmplPart) (args : List (String × PyVal)) : String :=
  strJoin (parts.map (fun p =>
    match p with
    | .lit s => s
    | .var n =>
      match args.find? (fun kv => kv.1 == n) with
      | some kv => pyStr kv.2
      | Option.none => ""))

/-- Split at the first `\x7b\x7b`, returning the text before it and the
remainder after it (when present). -/
def splitAtOpen : List Char → List Char × Option (List Char)
  | [] => ([], Option.none)
  | '\x7b' :: '\x7b' :: rest => ([], some rest)
  | c :: rest =>
    (match splitAtOpen rest with
     | (pre, rem) => (c :: pre, rem))

/-- Split at the first `\x7d\x7d`, failing when it never occurs. -/
def splitAtClose : List Char → Option (List Char × List Char)
  | [] => Option.none
  | '\x7d' :: '\x7d' :: rest => some ([], rest)
  | c :: rest =>
    (match splitAtClose rest with
     | some (pre, rem) => some (c :: pre, rem)
     | Option.none => Option.none)

/-- Parse a template into parts (fuel-indexed; an unclosed substitution
is a syntax error).  The expression inside a substitution is modelled as
a plain variable name (surrounding whitespace trimmed), the only form
the templates of this code base use. -/
def parseTmplAux : Nat → List Char → Option (List TmplPart)
  | 0, _ => Option.none
  | Nat.succ fuel, cs =>
    match splitAtOpen cs with
    | (pre, Option.none) =>
      some (if pre.isEmpty then [] else [.lit (String.mk pre)])
    | (pre, some rest) =>
      match splitAtClose rest with
      | Option.none => Option.none
      | some (name, rem) =>
        (match parseTmplAux fuel rem with
         | some parts =>
           some ((if pre.isEmpty then [] else [.lit (String.mk pre)]) ++
             .var (String.mk (stripChars name)) :: parts)
         | Option.none => Option.none)

/-- Parse a template string. -/
def parseTmpl (s : String) : Option (List TmplPart) :=
  parseTmplAux (s.data.length + 1) s.data

/-- The rendering step of `CurlExecutor.execute`: an empty template
raises `ValueError("CURL 命令不能为空")`; a template-syntax error raises
the wrapped rendering error; otherwise the command renders with the jinja2
default missing-variable behaviour. -/
def curlRenderCommand (extension : PyVal) (args : List (String × PyVal)) :
    Except String String :=
  let curl_template := dgetStr extension "curl"
  if curl_template = "" then .error "CURL 命令不能为空"
  else
    match parseTmpl curl_template with
    | Option.none => .error "渲染 CURL 命令失败: 模板语法错误"
    | some parts => .ok (renderParts parts args)

/-! ### The full cURL executor (`app/executors/curl.py`),
with its temporary-file lifecycle made observable. -/

/-- The `"=" * 80` separator the cURL executor writes around the logged
command. -/
def eq80 : String :=
  String.mk (List.replicate 80 '=')

/-- Model of `CurlExecutor.execute`, with the temporary script file made
observable.  The two render failures (empty template, template-syntax
error) raise before the temp file exists (lines 141-149 precede the
`NamedTemporaryFile` block at line 162).  After the rendered command is
logged, the script file is written and the subprocess runs (`outcome`);
the `finally` clause (lines 209-212) deletes the file on the success,
the error and the timeout path alike: a timeout raises
`TimeoutError("CURL 命令执行超时")` from its own `except` clause
unwrapped, and a non-zero return code raises a `RuntimeError` that the
`except Exception` clause re-wraps, nesting the messages.  The
`--data-raw` payload repair `_fix_data_raw_json` (lines 14-91, a pure
regex-and-literal-eval string repair) and the JSON pretty-printing of
stdout `_format_json_if_valid` (lines 93-118) touch no files and no
claim depends on their values; they enter the model as the string
parameters `fix_data_raw` and `format_json`.  The `chmod` on the script
file is assumed to succeed. -/
def curlExecute (fix_data_raw : String → String) (format_json : String → String)
    (script_path : String) (outcome : ProcOutcome)
    (args : List (String × PyVal)) (ctx : Context) (r : RunResult) : ScriptFileEffects :=
  match curlRenderCommand ctx.step_extension args with
  | .error e => { result := r, error := some e, created := [], deleted := [] }
  | .ok rendered =>
    let curl_command := fix_data_raw rendered
    let rendered_command_log :=
      "\n[CURL 命令]\n" ++ eq80 ++ "\n" ++ curl_command ++ "\n" ++ eq80 ++ "\n"
    let r1 := { r with
      logs := if r.logs ≠ "" then r.logs ++ rendered_command_log
        else pyStrip rendered_command_log }
    match outcome with
    | .timedOut =>
      { result := r1
        error := some "CURL 命令执行超时"
        created := [script_path]
        deleted := [script_path] }
    | .completed p =>
      let r2 :=
        if p.stdout ≠ "" then
          { r1 with text := if r1.text ≠ "" then pyStrip (r1.text ++ "\n" ++ format_json p.stdout)
            else format_json p.stdout }
        else r1
      let r3 :=
        if p.stdout ≠ "" then
          { r2 with logs := if r2.logs ≠ "" then r2.logs ++ "\n[执行输出]\n" ++ p.stdout
            else "[执行输出]\n" ++ p.stdout }
        else r2
      let r4 :=
        if p.stderr ≠ "" then
          { r3 with logs := if r3.logs ≠ "" then r3.logs ++ "\n[标准输出]\n" ++ p.stderr
            else "[标准输出]\n" ++ p.stderr }
        else r3
      if p.returncode ≠ 0 then
        { result := r4
          error := some ("CURL 命令执行出错: CURL 命令执行失败，返回码: " ++
            toString p.returncode ++ "\n" ++ p.stderr)
          created := [script_path]
          deleted := [script_path] }
      else
        { result := r4
          error := Option.none
          created := [script_path]
          deleted := [script_path] }

/-! ### Concrete fixtures used by the closed instance theorems. -/

/-- A job fixture. -/
def exJob : Job :=
  { id := 1, name := "job", project_id := 7 }

/-- An executor oracle whose calls always succeed and change nothing. -/
def exOracleOk : ExecOracle :=
  fun _ c r => (c, r, Option.none)

/-- An Ant-Design upload object carrying the server path `/tmp/up1`. -/
def exUpObj : PyVal :=
  .dict [("response", .dict [("path", .str "/tmp/up1")])]

/-- Workflow with two `file`-typed options and no steps (claim C1). -/
def c1wf : Workflow :=
  { timeout := 300
    retry := 0
    options := [{ name := "f1", option_type := "file" }, { name := "f2", option_type := "file" }]
    steps := [] }

/-- A single-option, single-step workflow whose file argument resolves
(claim C1 witness). -/
def c1wfOk : Workflow :=
  { timeout := 300
    retry := 0
    options := []
    steps := [] }

/-- A credential row fixture (claim C3). -/
def c3cred : Credential :=
  { id := 5, project_id := 7, credential_type := "mysql", config := .dict [] }

/-- A `credential`-typed option declaration (claim C3). -/
def c3opt : OptionDecl :=
  { name := "c", option_type := "credential" }

/-- A command step with the given order (claim C4). -/
def c4step (o : Int) : Step :=
  { order := o, step_type := "command", extension := .dict [("command", .str "echo")] }

/-- Steps stored in the order [2, 1, 3] (claim C4). -/
def c4wf : Workflow :=
  { timeout := 300
    retry := 0
    options := []
    steps := [c4step 2, c4step 1, c4step 3] }

/-- First step of the claim C5 witness: a command the oracle accepts. -/
def c5step1 : Step :=
  { order := 1, step_type := "command", extension := .dict [("command", .str "go")] }

/-- Second step of the claim C5 witness: a command the oracle rejects. -/
def c5step2 : Step :=
  { order := 2, step_type := "command", extension := .dict [("command", .str "boom")] }

/-- Workflow with the two claim C5 steps stored in order. -/
def c5wf : Workflow :=
  { timeout := 300
    retry := 0
    options := []
    steps := [c5step1, c5step2] }

/-- An oracle that appends to the text and fails exactly on the step
whose configured command is `boom` (claim C5). -/
def c5oracle : ExecOracle := fun _ c r =>
  if dgetStr c.step_extension "command" = "boom" then
    (c, { r with text := r.text ++ "T" }, some "err")
  else
    (c, { r with text := r.text ++ "ok" }, Option.none)

/-- A context whose step extension configures a command (claim C7). -/
def c7ctx : Context :=
  { job_id := 1
    job_name := "job"
    user_id := 1
    timeout := 300
    retry := 0
    project_id := 7
    credentials_map := []
    step_extension := .dict [("command", .str "echo")]
    step_type := "command" }

/-- Workflow with two `file`-typed options and no steps (claim C8). -/
def c8wf : Workflow :=
  { timeout := 300
    retry := 0
    options := [{ name := "f1", option_type := "file" }, { name := "f2", option_type := "file" }]
    steps := [] }

/-- An Ant-Design upload object carrying the server path `/tmp/up1`
(claim C8). -/
def c8upObj : PyVal :=
  .dict [("response", .dict [("path", .str "/tmp/up1")])]

/-! ### Predicates used by the verified properties. -/

/-- The append-only-up-to-strip invariant on `result.text`: a value is
kept when it is unchanged or when the stripped previous text remains a
prefix of the new text. -/
def TextKept (t0 t2 : String) : Prop :=
  t2 = t0 ∨ stripChars t0.data <+: t2.data

/-- No raw `<` or `>` anywhere in the character list. -/
def NoAngle (l : List Char) : Prop :=
  ∀ d ∈ l, d ≠ '<' ∧ d ≠ '>'

/-- Every `&` in the list begins one of the five entities
`html.escape` emits (`&amp;` `&lt;` `&gt;` `&quot;` `&#x27;`). -/
def ampClean (l : List Char) : Bool :=
  match l with
  | [] => true
  | c :: rest =>
    if c = '&' then
      if ['a', 'm', 'p', ';'].isPrefixOf rest then ampClean (rest.drop 4)
      else if ['l', 't', ';'].isPrefixOf rest then ampClean (rest.drop 3)
      else if ['g', 't', ';'].isPrefixOf rest then ampClean (rest.drop 3)
      else if ['q', 'u', 'o', 't', ';'].isPrefixOf rest then ampClean (rest.drop 5)
      else if ['#', 'x', '2', '7', ';'].isPrefixOf rest then ampClean (rest.drop 5)
      else false
    else ampClean rest
termination_by l.length
decreasing_by
  all_goals simp [List.length_drop]
  all_goals omega

/-- The fixed markup tokens the three renderers concatenate around
escaped content. -/
def fixedMarkup : List String :=
  ["<div>", "</div>", "<br>", "<div style=\x27color: red;\x27>",
   tableOpen, "<thead><tr>", "</tr></thead>", "<tbody>", "</tbody>", "</table>",
   "<tr>", "</tr>", "<th style=\x27padding: 8px; text-align: left;\x27>", "</th>",
   "<td style=\x27padding: 8px;\x27>", "</td>",
   "<thead><tr><th style=\x27padding: 8px; text-align: left;\x27>键</th>",
   "<th style=\x27padding: 8px; text-align: left;\x27>值</th></tr></thead>",
   "<div>无数据</div>"]

/-- The grammar of safe renderer output: a concatenation of fixed markup
tokens and HTML-escaped content segments.  A raw (unescaped) content
string containing `<`, `>` or a bare `&` can never appear: it is not a
markup token, and it is outside the image of `htmlEscape`. -/
inductive SafeHtml : List Char → Prop where
  | nil : SafeHtml []
  | markup (m : String) (hm : m ∈ fixedMarkup) {rest : List Char} :
      SafeHtml rest → SafeHtml (m.data ++ rest)
  | content (u : String) {rest : List Char} :
      SafeHtml rest → SafeHtml ((htmlEscape u).data ++ rest)

/-! ## Lemmas about `str.strip()`
The executors rebuild `result.text` with
`f"{current}\n{output}".strip()`; these lemmas show what survives the
stripping: the stripped previous text always remains a prefix. -/

lemma dropWhile_head_false (p : Char → Bool) :
    ∀ (l : List Char) {c : Char} {cs : List Char}, l.dropWhile p = c :: cs → p c = false := by
  intro l
  induction l with
  | nil =>
    intro c cs h
    rw [List.dropWhile_nil] at h
    exact List.noConfusion h
  | cons a l ih =>
    intro c cs h
    rw [List.dropWhile_cons] at h
    by_cases hp : p a
    · rw [if_pos hp] at h
      exact ih h
    · rw [if_neg hp] at h
      injection h with h1 h2
      subst h1
      simpa using hp

lemma strip_pref_append (a b : List Char) :
    stripChars a <+: stripChars (a ++ b) := by
  unfold stripChars
  rcases h : a.dropWhile isPyWs with - | ⟨c, a1⟩
  · simp only [List.reverse_nil, List.dropWhile_nil]
    exact List.nil_prefix
  · rw [List.dropWhile_append, h]
    simp only [List.isEmpty_cons, Bool.false_eq_true, if_false]
    rw [List.reverse_append, List.dropWhile_append]
    by_cases hb : (b.reverse.dropWhile isPyWs).isEmpty
    · rw [if_pos hb]
    · rw [if_neg hb]
      rw [List.reverse_append, List.reverse_reverse]
      have h1 : ((c :: a1).reverse.dropWhile isPyWs).reverse <+: c :: a1 := by
        have h2 := @List.dropWhile_suffix Char ((c :: a1).reverse) isPyWs
        have h3 := List.reverse_prefix.mpr h2
        rwa [List.reverse_reverse] at h3
      exact h1.trans (List.prefix_append _ _)

lemma stripChars_head_false {x : List Char} {c : Char} {cs : List Char}
    (h : stripChars x = c :: cs) : isPyWs c = false := by
  have h2 : (c :: cs).reverse <:+ (x.dropWhile isPyWs).reverse := by
    rw [← h]
    unfold stripChars
    rw [List.reverse_reverse]
    exact List.dropWhile_suffix _
  have h3 : c :: cs <+: x.dropWhile isPyWs := by
    have h4 := List.reverse_prefix.mpr h2
    rwa [List.reverse_reverse, List.reverse_reverse] at h4
  obtain ⟨r, hr⟩ := h3
  exact dropWhile_head_false isPyWs x
    (show x.dropWhile isPyWs = c :: (cs ++ r) from by rw [← hr, List.cons_append])

lemma stripChars_revhead_false {x : List Char} {c : Char} {cs : List Char}
    (h : (stripChars x).reverse = c :: cs) : isPyWs c = false := by
  unfold stripChars at h
  rw [List.reverse_reverse] at h
  exact dropWhile_head_false isPyWs _ h

lemma strip_pref_of_pref {x t : List Char}
    (h : stripChars x <+: t) : stripChars x <+: stripChars t := by
  rcases hs : stripChars x with - | ⟨c, s1⟩
  · exact List.nil_prefix
  · rw [hs] at h
    obtain ⟨rest, hrest⟩ := h
    have hc : isPyWs c = false := stripChars_head_false hs
    have hdw : t.dropWhile isPyWs = c :: (s1 ++ rest) := by
      rw [← hrest, List.cons_append, List.dropWhile_cons, hc]
      simp
    unfold stripChars
    rw [hdw]
    rw [show c :: (s1 ++ rest) = (c :: s1) ++ rest from by rw [List.cons_append]]
    rw [List.reverse_append, List.dropWhile_append]
    by_cases hb : (rest.reverse.dropWhile isPyWs).isEmpty
    · rw [if_pos hb]
      have hfix : (c :: s1).reverse.dropWhile isPyWs = (c :: s1).reverse := by
        rcases hr : (c :: s1).reverse with - | ⟨d, ds⟩
        · simp at hr
        · have hd : isPyWs d = false := @stripChars_revhead_false x d ds (by rw [hs, hr])
          rw [List.dropWhile_cons, hd]
          simp
      rw [hfix, List.reverse_reverse]
    · rw [if_neg hb]
      rw [List.reverse_append, List.reverse_reverse]
      exact List.prefix_append _ _

lemma pyStrip_data (s : String) : (pyStrip s).data = stripChars s.data := rfl

lemma textKept_rfl (t : String) : TextKept t t := Or.inl rfl

lemma textKept_trans {a b c : String} (h1 : TextKept a b) (h2 : TextKept b c) :
    TextKept a c := by
  rcases h2 with rfl | h2
  · exact h1
  · rcases h1 with rfl | h1
    · exact Or.inr h2
    · exact Or.inr ((strip_pref_of_pref h1).trans h2)

lemma textKept_appendStdout (r : RunResult) (o : String) :
    TextKept r.text (appendStdout r o).text := by
  unfold appendStdout
  by_cases ho : o ≠ ""
  · rw [if_pos ho]
    by_cases ht : r.text ≠ ""
    · rw [if_pos ht]
      refine Or.inr ?_
      rw [pyStrip_data, String.data_append, String.data_append, List.append_assoc]
      exact strip_pref_append _ _
    · rw [if_neg ht]
      refine Or.inr ?_
      rw [not_not.mp ht]
      exact List.nil_prefix
  · rw [if_neg ho]
    exact textKept_rfl _

lemma textKept_appendStderr (r : RunResult) (e : String) :
    TextKept r.text (appendStderr r e).text := by
  unfold appendStderr
  by_cases he : e ≠ ""
  · rw [if_pos he]
    by_cases ht : r.text ≠ ""
    · rw [if_pos ht]
      refine Or.inr ?_
      rw [pyStrip_data, String.data_append, String.data_append, List.append_assoc]
      exact strip_pref_append _ _
    · rw [if_neg ht]
      refine Or.inr ?_
      rw [not_not.mp ht]
      exact List.nil_prefix
  · rw [if_neg he]
    exact textKept_rfl _

/-! ## Lemmas about the step loop. -/

lemma runSteps_append (exec : ExecOracle) (l1 l2 : List Step) :
    ∀ (c : Context) (r : RunResult),
      runSteps exec c r (l1 ++ l2) =
        match runSteps exec c r l1 with
        | (c1, r1, Option.none, tr1) =>
          (match runSteps exec c1 r1 l2 with
           | (c2, r2, e2, tr2) => (c2, r2, e2, tr1 ++ tr2))
        | (c1, r1, some e, tr1) => (c1, r1, some e, tr1) := by
  induction l1 with
  | nil =>
    intro c r
    rcases h2 : runSteps exec c r l2 with ⟨c2, r2, e2, tr2⟩
    simp [runSteps, h2]
  | cons s l1 ih =>
    intro c r
    rw [List.cons_append]
    rcases hge : get_executor s.step_type with msg | k
    · simp [runSteps, hge]
    · rcases hex : exec k (setStepCtx c s) r with ⟨c2, r2, e2⟩
      rcases e2 with - | e
      · simp only [runSteps, hge, hex]
        rw [ih c2 r2]
        rcases h1 : runSteps exec c2 r2 l1 with ⟨c3, r3, e3, tr3⟩
        rcases e3 with - | e3
        · rcases h2 : runSteps exec c3 r3 l2 with ⟨c4, r4, e4, tr4⟩
          simp
        · simp
      · simp [runSteps, hge, hex]

lemma runSteps_trace_pref (exec : ExecOracle) :
    ∀ (l : List Step) (c : Context) (r : RunResult),
      (runSteps exec c r l).2.2.2 <+: l := by
  intro l
  induction l with
  | nil =>
    intro c r
    exact List.nil_prefix
  | cons s l ih =>
    intro c r
    rcases hge : get_executor s.step_type with msg | k
    · simp [runSteps, hge]
    · rcases hex : exec k (setStepCtx c s) r with ⟨c2, r2, e2⟩
      rcases e2 with - | e
      · simp only [runSteps, hge, hex]
        rcases h1 : runSteps exec c2 r2 l with ⟨c3, r3, e3, tr3⟩
        have h2 := ih c2 r2
        rw [h1] at h2
        exact (List.cons_prefix_cons).mpr ⟨rfl, h2⟩
      · simp [runSteps, hge, hex]

lemma runSteps_none_trace (exec : ExecOracle) :
    ∀ (l : List Step) (c : Context) (r : RunResult) (c2 : Context) (r2 : RunResult)
      (tr : List Step), runSteps exec c r l = (c2, r2, Option.none, tr) → tr = l := by
  intro l
  induction l with
  | nil =>
    intro c r c2 r2 tr h
    simp [runSteps] at h
    exact h.2.2
  | cons s l ih =>
    intro c r c2 r2 tr h
    rcases hge : get_executor s.step_type with msg | k
    · simp [runSteps, hge] at h
    · rcases hex : exec k (setStepCtx c s) r with ⟨c3, r3, e3⟩
      rcases e3 with - | e
      · simp only [runSteps, hge, hex] at h
        rcases h1 : runSteps exec c3 r3 l with ⟨c4, r4, e4, tr4⟩
        rw [h1] at h
        simp at h
        obtain ⟨-, -, he, htr⟩ := h
        subst htr
        rw [ih c3 r3 c4 r4 tr4 (by rw [h1, he])]
      · simp [runSteps, hge, hex] at h

/-! ## Lemmas about the sort by `Step.order`. -/

lemma mergeSort_order_le (l : List Step) :
    (l.mergeSort stepOrderLE).Pairwise (fun a b => a.order ≤ b.order) := by
  have h : (l.mergeSort stepOrderLE).Pairwise (fun a b => stepOrderLE a b = true) :=
    List.sorted_mergeSort
      (fun a b c hab hbc => by
        simp only [stepOrderLE, decide_eq_true_eq] at hab hbc ⊢
        exact le_trans hab hbc)
      (fun a b => by
        simp only [stepOrderLE, Bool.or_eq_true, decide_eq_true_eq]
        exact le_total a.order b.order)
      l
  exact h.imp (fun hab => by simpa [stepOrderLE] using hab)

lemma mergeSort_order_lt_of_distinct (l : List Step)
    (h : l.Pairwise (fun a b => a.order ≠ b.order)) :
    (l.mergeSort stepOrderLE).Pairwise (fun a b => a.order < b.order) := by
  have hle := mergeSort_order_le l
  have hperm := List.mergeSort_perm l stepOrderLE
  have hne : (l.mergeSort stepOrderLE).Pairwise
      (fun a b => a.order ≠ b.order) :=
    (hperm.pairwise_iff (fun hxy => hxy.symm)).mpr h
  exact (hle.and hne).imp (fun hab => lt_of_le_of_ne hab.1 hab.2)

/-! ## Safety lemmas for the renderers. -/

lemma escapeChar_no_angle (c : Char) :
    ∀ d ∈ (escapeChar c).data, d ≠ '<' ∧ d ≠ '>' := by
  unfold escapeChar
  split_ifs with h1 h2 h3 h4 h5
  · decide
  · decide
  · decide
  · decide
  · decide
  · intro d hd
    have hs : (String.singleton c).data = [c] := rfl
    rw [hs, List.mem_singleton] at hd
    subst hd
    exact ⟨h2, h3⟩

lemma ampClean_escape_append (c : Char) (l : List Char) (h : ampClean l = true) :
    ampClean ((escapeChar c).data ++ l) = true := by
  by_cases h1 : c = '&'
  · subst h1
    rw [show (escapeChar '&').data ++ l = '&' :: 'a' :: 'm' :: 'p' :: ';' :: l from rfl]
    rw [ampClean]
    simpa [List.isPrefixOf] using h
  by_cases h2 : c = '<'
  · subst h2
    rw [show (escapeChar '<').data ++ l = '&' :: 'l' :: 't' :: ';' :: l from rfl]
    rw [ampClean]
    simpa [List.isPrefixOf] using h
  by_cases h3 : c = '>'
  · subst h3
    rw [show (escapeChar '>').data ++ l = '&' :: 'g' :: 't' :: ';' :: l from rfl]
    rw [ampClean]
    simpa [List.isPrefixOf] using h
  by_cases h4 : c = '"'
  · subst h4
    rw [show (escapeChar '"').data ++ l = '&' :: 'q' :: 'u' :: 'o' :: 't' :: ';' :: l from rfl]
    rw [ampClean]
    simpa [List.isPrefixOf] using h
  by_cases h5 : c = '\x27'
  · subst h5
    rw [show (escapeChar '\x27').data ++ l = '&' :: '#' :: 'x' :: '2' :: '7' :: ';' :: l
      from rfl]
    rw [ampClean]
    simpa [List.isPrefixOf] using h
  have he : (escapeChar c).data = [c] := by
    unfold escapeChar
    rw [if_neg h1, if_neg h2, if_neg h3, if_neg h4, if_neg h5]
    rfl
  rw [he, List.cons_append, List.nil_append, ampClean]
  simpa [h1] using h

lemma htmlEscape_clean_aux (cs : List Char) :
    NoAngle (((cs.map escapeChar).map String.data).flatten) ∧
    ampClean (((cs.map escapeChar).map String.data).flatten) = true := by
  induction cs with
  | nil => exact ⟨fun d hd => absurd hd (by simp), by rw [ampClean.eq_def]; rfl⟩
  | cons c cs ih =>
    have hflat : ((((c :: cs).map escapeChar).map String.data).flatten : List Char)
        = (escapeChar c).data ++ ((cs.map escapeChar).map String.data).flatten := by
      simp
    rw [hflat]
    constructor
    · intro d hd
      rcases List.mem_append.mp hd with h | h
      · exact escapeChar_no_angle c d h
      · exact ih.1 d h
    · exact ampClean_escape_append c _ ih.2

lemma htmlEscape_clean (s : String) :
    NoAngle (htmlEscape s).data ∧ ampClean (htmlEscape s).data = true :=
  htmlEscape_clean_aux s.data

lemma SafeHtml.append {a b : List Char} (ha : SafeHtml a) (hb : SafeHtml b) :
    SafeHtml (a ++ b) := by
  induction ha with
  | nil => exact hb
  | markup m hm hrest ih =>
    rw [List.append_assoc]
    exact SafeHtml.markup m hm ih
  | content u hrest ih =>
    rw [List.append_assoc]
    exact SafeHtml.content u ih

lemma safeStr_markup (m : String) (hm : m ∈ fixedMarkup) : SafeHtml m.data := by
  have h := SafeHtml.markup m hm SafeHtml.nil
  rwa [List.append_nil] at h

lemma safeStr_escape (u : String) : SafeHtml (htmlEscape u).data := by
  have h := SafeHtml.content u SafeHtml.nil
  rwa [List.append_nil] at h

lemma safeStr_append {s t : String} (hs : SafeHtml s.data) (ht : SafeHtml t.data) :
    SafeHtml (s ++ t).data := by
  rw [String.data_append]
  exact hs.append ht

lemma strJoin_cons_data (s : String) (l : List String) :
    (strJoin (s :: l)).data = s.data ++ (strJoin l).data := by
  simp [strJoin]

lemma safe_strJoin (l : List String) (h : ∀ s ∈ l, SafeHtml s.data) :
    SafeHtml (strJoin l).data := by
  induction l with
  | nil => exact SafeHtml.nil
  | cons s l ih =>
    rw [strJoin_cons_data]
    exact (h s (by simp)).append (ih (fun t ht => h t (by simp [ht])))

lemma safe_brBody (cs : List Char) {rest : List Char} (hrest : SafeHtml rest) :
    SafeHtml (((((strJoin (cs.map escapeChar)).data).map brChar).map String.data).flatten
      ++ rest) := by
  induction cs with
  | nil => exact hrest
  | cons c cs ih =>
    have hx : (((((strJoin ((c :: cs).map escapeChar)).data).map brChar).map
          String.data).flatten : List Char)
        = (((escapeChar c).data.map brChar).map String.data).flatten ++
          ((((strJoin (cs.map escapeChar)).data).map brChar).map String.data).flatten := by
      rw [List.map_cons, strJoin_cons_data, List.map_append, List.map_append,
        List.flatten_append]
    rw [hx, List.append_assoc]
    by_cases h1 : c = '\n'
    · subst h1
      exact SafeHtml.markup "<br>" (by simp [fixedMarkup]) ih
    by_cases h2 : c = '&'
    · subst h2
      exact SafeHtml.content "&" ih
    by_cases h3 : c = '<'
    · subst h3
      exact SafeHtml.content "<" ih
    by_cases h4 : c = '>'
    · subst h4
      exact SafeHtml.content ">" ih
    by_cases h5 : c = '"'
    · subst h5
      exact SafeHtml.content "\"" ih
    by_cases h6 : c = '\x27'
    · subst h6
      exact SafeHtml.content "\x27" ih
    have he : escapeChar c = String.singleton c := by
      unfold escapeChar
      rw [if_neg h2, if_neg h3, if_neg h4, if_neg h5, if_neg h6]
    have hb : brChar c = String.singleton c := by
      unfold brChar
      rw [if_neg h1]
    have hx2 : ((((escapeChar c).data.map brChar).map String.data).flatten : List Char)
        = (htmlEscape (String.singleton c)).data := by
      rw [he]
      show ([c].map brChar |>.map String.data).flatten = _
      rw [show ([c].map brChar) = [String.singleton c] from by rw [List.map_cons]; rw [hb]; rfl]
      show (String.singleton c).data ++ [] = (htmlEscape (String.singleton c)).data
      show (String.singleton c).data ++ [] =
        (((String.singleton c).data.map escapeChar).map String.data).flatten
      rw [show (String.singleton c).data = [c] from rfl]
      rw [List.map_cons, he]
      rfl
    rw [hx2]
    exact SafeHtml.content (String.singleton c) ih

lemma safe_generate_text (t : String) : SafeHtml (generate_text_html t).data := by
  unfold generate_text_html
  rw [String.data_append, String.data_append, List.append_assoc]
  exact SafeHtml.markup "<div>" (by simp [fixedMarkup])
    (safe_brBody t.data (safeStr_markup "</div>" (by simp [fixedMarkup])))

lemma safe_generate_error (m : String) : SafeHtml (generate_error_html m).data := by
  unfold generate_error_html
  rw [String.data_append, String.data_append, List.append_assoc]
  exact SafeHtml.markup "<div style=\x27color: red;\x27>" (by simp [fixedMarkup])
    (safe_brBody m.data (safeStr_markup "</div>" (by simp [fixedMarkup])))

lemma safe_thCell (h : String) : SafeHtml (thCell h).data := by
  unfold thCell
  exact safeStr_append
    (safeStr_append (safeStr_markup _ (by simp [fixedMarkup])) (safeStr_escape _))
    (safeStr_markup "</th>" (by simp [fixedMarkup]))

lemma safe_tdCell (v : PyVal) : SafeHtml (tdCell v).data := by
  unfold tdCell
  exact safeStr_append
    (safeStr_append (safeStr_markup _ (by simp [fixedMarkup])) (safeStr_escape _))
    (safeStr_markup "</td>" (by simp [fixedMarkup]))

lemma safe_rowHtml (headers : List String) (row : PyVal) :
    SafeHtml (rowHtml headers row).data := by
  have htr : SafeHtml ("<tr>" : String).data := safeStr_markup _ (by simp [fixedMarkup])
  have htr2 : SafeHtml ("</tr>" : String).data := safeStr_markup _ (by simp [fixedMarkup])
  cases row with
  | dict kvs =>
    refine safeStr_append (safeStr_append htr ?_) htr2
    refine safe_strJoin _ (fun s hs => ?_)
    obtain ⟨h, -, rfl⟩ := List.mem_map.mp hs
    exact safe_tdCell _
  | none => exact safeStr_append (safeStr_append htr (safe_tdCell _)) htr2
  | bool b => exact safeStr_append (safeStr_append htr (safe_tdCell _)) htr2
  | int n => exact safeStr_append (safeStr_append htr (safe_tdCell _)) htr2
  | str s => exact safeStr_append (safeStr_append htr (safe_tdCell _)) htr2
  | list xs => exact safeStr_append (safeStr_append htr (safe_tdCell _)) htr2

lemma safe_tableForList (x : PyVal) (xs : List PyVal) :
    SafeHtml (tableForList x xs).data := by
  have hopen : SafeHtml tableOpen.data := safeStr_markup _ (by simp [fixedMarkup])
  have hth : SafeHtml ("<thead><tr>" : String).data := safeStr_markup _ (by simp [fixedMarkup])
  have hth2 : SafeHtml ("</tr></thead>" : String).data :=
    safeStr_markup _ (by simp [fixedMarkup])
  have htb : SafeHtml ("<tbody>" : String).data := safeStr_markup _ (by simp [fixedMarkup])
  have htb2 : SafeHtml ("</tbody>" : String).data := safeStr_markup _ (by simp [fixedMarkup])
  have hte : SafeHtml ("</table>" : String).data := safeStr_markup _ (by simp [fixedMarkup])
  have hths : ∀ (hs : List String), SafeHtml (strJoin (hs.map thCell)).data := by
    intro hs
    refine safe_strJoin _ (fun s hsm => ?_)
    obtain ⟨h, -, rfl⟩ := List.mem_map.mp hsm
    exact safe_thCell _
  have hrows : ∀ (hs : List String) (rows : List PyVal),
      SafeHtml (strJoin (rows.map (rowHtml hs))).data := by
    intro hs rows
    refine safe_strJoin _ (fun s hsm => ?_)
    obtain ⟨r, -, rfl⟩ := List.mem_map.mp hsm
    exact safe_rowHtml _ _
  cases x with
  | dict kvs =>
    exact safeStr_append (safeStr_append (safeStr_append (safeStr_append
      (safeStr_append (safeStr_append (safeStr_append hopen hth) (hths _)) hth2) htb)
      (hrows _ _)) htb2) hte
  | none =>
    exact safeStr_append (safeStr_append (safeStr_append (safeStr_append
      (safeStr_append (safeStr_append (safeStr_append hopen hth) (hths _)) hth2) htb)
      (hrows _ _)) htb2) hte
  | bool b =>
    exact safeStr_append (safeStr_append (safeStr_append (safeStr_append
      (safeStr_append (safeStr_append (safeStr_append hopen hth) (hths _)) hth2) htb)
      (hrows _ _)) htb2) hte
  | int n =>
    exact safeStr_append (safeStr_append (safeStr_append (safeStr_append
      (safeStr_append (safeStr_append (safeStr_append hopen hth) (hths _)) hth2) htb)
      (hrows _ _)) htb2) hte
  | str s =>
    exact safeStr_append (safeStr_append (safeStr_append (safeStr_append
      (safeStr_append (safeStr_append (safeStr_append hopen hth) (hths _)) hth2) htb)
      (hrows _ _)) htb2) hte
  | list ys =>
    exact safeStr_append (safeStr_append (safeStr_append (safeStr_append
      (safeStr_append (safeStr_append (safeStr_append hopen hth) (hths _)) hth2) htb)
      (hrows _ _)) htb2) hte

lemma safe_tableForDict (kvs : List (String × PyVal)) :
    SafeHtml (tableForDict kvs).data := by
  unfold tableForDict
  refine safeStr_append (safeStr_append (safeStr_append (safeStr_append
    (safeStr_append (safeStr_append (safeStr_markup tableOpen (by simp [fixedMarkup]))
      (safeStr_markup _ (by simp [fixedMarkup])))
      (safeStr_markup _ (by simp [fixedMarkup])))
      (safeStr_markup "<tbody>" (by simp [fixedMarkup]))) ?_)
    (safeStr_markup "</tbody>" (by simp [fixedMarkup])))
    (safeStr_markup "</table>" (by simp [fixedMarkup]))
  refine safe_strJoin _ (fun s hsm => ?_)
  obtain ⟨kv, -, rfl⟩ := List.mem_map.mp hsm
  exact safeStr_append (safeStr_append (safeStr_append
    (safeStr_markup "<tr>" (by simp [fixedMarkup])) (safe_tdCell _)) (safe_tdCell _))
    (safeStr_markup "</tr>" (by simp [fixedMarkup]))

lemma safe_fallback_div (u : String) :
    SafeHtml ("<div>" ++ htmlEscape u ++ "</div>" : String).data :=
  safeStr_append (safeStr_append (safeStr_markup "<div>" (by simp [fixedMarkup]))
    (safeStr_escape u)) (safeStr_markup "</div>" (by simp [fixedMarkup]))

lemma safe_tableCore (d : PyVal) : SafeHtml (tableCore d).data := by
  cases d with
  | list xs =>
    cases xs with
    | nil => exact safeStr_markup "<div>无数据</div>" (by simp [fixedMarkup])
    | cons x xs => exact safe_tableForList x xs
  | dict kvs => exact safe_tableForDict kvs
  | none => exact safe_fallback_div _
  | bool b => exact safe_fallback_div _
  | int n => exact safe_fallback_div _
  | str s => exact safe_fallback_div _

lemma safe_generate_table (d : PyVal) : SafeHtml (generate_table_html d).data := by
  unfold generate_table_html
  by_cases h : pyTruthy d = false
  · rw [if_pos h]
    exact safeStr_markup "<div>无数据</div>" (by simp [fixedMarkup])
  · rw [if_neg h]
    cases d with
    | str s =>
      rcases hj : jsonLoads s with - | v
      · simp only [hj]
        exact safe_fallback_div s
      · simp only [hj]
        exact safe_tableCore v
    | none => exact safe_tableCore _
    | bool b => exact safe_tableCore _
    | int n => exact safe_tableCore _
    | list xs => exact safe_tableCore _
    | dict kvs => exact safe_tableCore _

/-! ## Miscellaneous helper lemmas. -/

lemma strJoin_cons (s : String) (l : List String) :
    strJoin (s :: l) = s ++ strJoin l := by
  apply String.ext
  rw [strJoin_cons_data, String.data_append]

lemma strJoin_append (a b : List String) :
    strJoin (a ++ b) = strJoin a ++ strJoin b := by
  apply String.ext
  rw [String.data_append]
  show ((a ++ b).map String.data).flatten = _
  rw [List.map_append, List.flatten_append]
  rfl

lemma renderParts_append (p1 p2 : List TmplPart) (args : List (String × PyVal)) :
    renderParts (p1 ++ p2) args = renderParts p1 args ++ renderParts p2 args := by
  unfold renderParts
  rw [List.map_append, strJoin_append]

lemma renderParts_var_cons (n : String) (post : List TmplPart)
    (args : List (String × PyVal)) :
    renderParts (.var n :: post) args =
      (match args.find? (fun kv => kv.1 == n) with
       | some kv => pyStr kv.2
       | Option.none => "") ++ renderParts post args := by
  unfold renderParts
  rw [List.map_cons, strJoin_cons]

lemma pref_data_append {a : List Char} {s : String} (t : String) (h : a <+: s.data) :
    a <+: (s ++ t).data := by
  rw [String.data_append]
  exact h.trans (List.prefix_append _ _)

lemma table_starts_tableForList (x : PyVal) (xs : List PyVal) :
    ("<table" : String).data <+: (tableForList x xs).data := by
  have h0 : ("<table" : String).data <+: tableOpen.data := by decide
  cases x with
  | dict kvs =>
    exact pref_data_append _ (pref_data_append _ (pref_data_append _ (pref_data_append _
      (pref_data_append _ (pref_data_append _ (pref_data_append _ h0))))))
  | none =>
    exact pref_data_append _ (pref_data_append _ (pref_data_append _ (pref_data_append _
      (pref_data_append _ (pref_data_append _ (pref_data_append _ h0))))))
  | bool b =>
    exact pref_data_append _ (pref_data_append _ (pref_data_append _ (pref_data_append _
      (pref_data_append _ (pref_data_append _ (pref_data_append _ h0))))))
  | int n =>
    exact pref_data_append _ (pref_data_append _ (pref_data_append _ (pref_data_append _
      (pref_data_append _ (pref_data_append _ (pref_data_append _ h0))))))
  | str s =>
    exact pref_data_append _ (pref_data_append _ (pref_data_append _ (pref_data_append _
      (pref_data_append _ (pref_data_append _ (pref_data_append _ h0))))))
  | list ys =>
    exact pref_data_append _ (pref_data_append _ (pref_data_append _ (pref_data_append _
      (pref_data_append _ (pref_data_append _ (pref_data_append _ h0))))))

lemma table_starts_tableForDict (kvs : List (String × PyVal)) :
    ("<table" : String).data <+: (tableForDict kvs).data := by
  have h0 : ("<table" : String).data <+: tableOpen.data := by decide
  exact pref_data_append _ (pref_data_append _ (pref_data_append _ (pref_data_append _
    (pref_data_append _ (pref_data_append _ h0)))))

/-! ## The claims. -/

/-- Claim C2 (code bug in the source).  The spec requires one registered
executor per step kind — command, shell_script, python_script, curl and
mysql, case-insensitively — with the unsupported-step-kind error exactly
for other strings.  `ExecutorFactory._executors` registers only the
first three, although `CurlExecutor` and `MysqlExecutor` are fully
implemented in `app/executors/` and `StepTypeEnum` declares both kinds,
so `get_executor` raises the unsupported-step-kind error for `curl` and
`mysql` in every letter case. -/
theorem c2_registry_missing_curl_mysql :
    get_executor "command" = .ok .command ∧
    get_executor "COMMAND" = .ok .command ∧
    get_executor "Shell_Script" = .ok .shell_script ∧
    get_executor "PYTHON_SCRIPT" = .ok .python_script ∧
    get_executor "nonesuch" = .error "不支持的步骤类型: nonesuch" ∧
    get_executor "curl" = .error "不支持的步骤类型: curl" ∧
    get_executor "CURL" = .error "不支持的步骤类型: CURL" ∧
    get_executor "mysql" = .error "不支持的步骤类型: mysql" :=
  ⟨rfl, rfl, rfl, rfl, rfl, rfl, rfl, rfl⟩

/-- Claim C7 (amended).  A `CommandExecutor.execute` call either leaves
`result.text` unchanged or replaces it by a string that keeps the
*stripped* previous text as a prefix: the `f"{current}\n{output}".strip()`
pattern trims surrounding whitespace of the concatenation, so the
previous text survives only up to its outer whitespace.  Two command
steps with stdout `"A\n"` then `"B\n"` accumulate to `"A\n\nB"`, with
`A` before `B`. -/
theorem c7_text_accumulates :
    (∀ (outcome : ProcOutcome) (ctx : Context) (r : RunResult),
      TextKept r.text (commandExecute outcome ctx r).2.1.text) ∧
    ((commandExecute (.completed { stdout := "A\n", stderr := "", returncode := 0 })
        c7ctx initResult).2.1.text = "A\n" ∧
      (commandExecute (.completed { stdout := "B\n", stderr := "", returncode := 0 }) c7ctx
        { text := "A\n", dataset := Option.none, logs := "" }).2.1.text = "A\n\nB") := by
  constructor
  · intro outcome ctx r
    unfold commandExecute
    by_cases hc : dgetStr ctx.step_extension "command" = ""
    · rw [if_pos hc]
      exact textKept_rfl _
    · rw [if_neg hc]
      cases outcome with
      | timedOut => exact textKept_rfl _
      | completed p =>
        have h := textKept_trans (textKept_appendStdout r p.stdout)
          (textKept_appendStderr (appendStdout r p.stdout) p.stderr)
        by_cases hrc : p.returncode ≠ 0
        · simp only [if_pos hrc]
          exact h
        · simp only [if_neg hrc]
          exact h
  · exact ⟨rfl, rfl⟩

/-- Counterexample for claim C7.  The claim as stated — the previously
accumulated text is always a literal prefix of the new value — fails: a
first command step with stdout `"  A\n"` leaves `result.text = "  A\n"`
verbatim, and a second step with stdout `"B\n"` produces `"A\n\nB"`
because `.strip()` removes the leading whitespace, so the old text is no
longer a prefix. -/
theorem c7_counterexample :
    (commandExecute (.completed { stdout := "  A\n", stderr := "", returncode := 0 })
      c7ctx initResult).2.1.text = "  A\n" ∧
    (commandExecute (.completed { stdout := "B\n", stderr := "", returncode := 0 }) c7ctx
      { text := "  A\n", dataset := Option.none, logs := "" }).2.1.text = "A\n\nB" ∧
    ¬ (("  A\n" : String).data <+: ("A\n\nB" : String).data) :=
  ⟨rfl, rfl, by decide⟩

/-- Claim C9 (amended).  When the cURL template parses, rendering always
succeeds: a variable present in the arguments is substituted as its
plain scalar (`str()`), and a missing variable renders as the *empty
string* (the jinja2 default `Undefined`), not as an error. -/
theorem c9_render_missing_vars_empty (ext : PyVal) (args : List (String × PyVal))
    (s : String) (parts : List TmplPart)
    (h1 : dgetStr ext "curl" = s) (h2 : s ≠ "") (h3 : parseTmpl s = some parts) :
    curlRenderCommand ext args = .ok (renderParts parts args) ∧
    (∀ pre n post, parts = pre ++ .var n :: post →
      renderParts parts args =
        renderParts pre args ++
        (match args.find? (fun kv => kv.1 == n) with
         | some kv => pyStr kv.2
         | Option.none => "") ++ renderParts post args) := by
  constructor
  · unfold curlRenderCommand
    rw [h1, if_neg h2, h3]
  · intro pre n post hp
    subst hp
    rw [renderParts_append, renderParts_var_cons, String.append_assoc]

/-- Witness for claim C9: the amended theorem applied to a concrete template
`curl {{ host }}` with the variable present. -/
theorem c9_witness :
    curlRenderCommand (.dict [("curl", .str "curl \x7b\x7b host \x7d\x7d")])
      [("host", .str "h.example")] = .ok "curl h.example" := by
  have h := (c9_render_missing_vars_empty
    (.dict [("curl", .str "curl \x7b\x7b host \x7d\x7d")])
    [("host", .str "h.example")] "curl \x7b\x7b host \x7d\x7d"
    [.lit "curl ", .var "host"] rfl (by decide) rfl).1
  exact h.trans rfl

/-- Counterexample for claim C9.  A Curl step whose template references the
variable `host`, run with no arguments, renders successfully to
`"curl "` — the missing variable is silently substituted by the empty
string, and no error of any kind is raised, contradicting the claim that
rendering raises a clear error on missing variables. -/
theorem c9_counterexample :
    curlRenderCommand (.dict [("curl", .str "curl \x7b\x7b host \x7d\x7d")]) [] =
      .ok "curl " ∧
    ∀ e, curlRenderCommand (.dict [("curl", .str "curl \x7b\x7b host \x7d\x7d")]) [] ≠
      .error e := by
  refine ⟨rfl, fun e h => ?_⟩
  rw [show curlRenderCommand (.dict [("curl", .str "curl \x7b\x7b host \x7d\x7d")]) []
    = .ok "curl " from rfl] at h
  exact Except.noConfusion h

/-- Claim C10 (confirmed).  Every string interpolated into the rendered
output is HTML-escaped: `htmlEscape` output contains no raw `<` or `>`
and every `&` begins an entity, and the text, error and table renderers
produce output generated exclusively from fixed markup tokens and
`htmlEscape` images (`SafeHtml`), so no unescaped `<`, `>` or `&`
originating from result content or error text reaches the artifact. -/
theorem c10_html_escaped_rendering :
    (∀ s : String, NoAngle (htmlEscape s).data ∧ ampClean (htmlEscape s).data = true) ∧
    (∀ t : String, SafeHtml (generate_text_html t).data) ∧
    (∀ m : String, SafeHtml (generate_error_html m).data) ∧
    (∀ d : PyVal, SafeHtml (generate_table_html d).data) :=
  ⟨htmlEscape_clean, safe_generate_text, safe_generate_error, safe_generate_table⟩

/-- Claim C3 (confirmed).  Every entry of the credentials map attached to
the context is a credential row of the store whose `project_id` equals
the project of the run and whose id was supplied as the value of an argument
bound to a declared `credential`-typed option; consequently, when ids
are unique in the store, a credential of a different project never
appears under its id, and values bound only to non-credential options
contribute nothing. -/
theorem c3_credential_scoping :
    ∀ (db : List Credential) (project_id : Int) (opts : List OptionDecl)
      (args : List (String × PyVal)),
      (∀ id cred, (id, cred) ∈ loadCredentialsMap db project_id opts args →
        cred ∈ db ∧ cred.id = id ∧ cred.project_id = project_id ∧
        ∃ k v, (k, v) ∈ args ∧ pyDigitInt v = some id ∧
          ∃ o, o ∈ opts ∧ o.name = k ∧ o.option_type = "credential") ∧
      (∀ c1, c1 ∈ db → c1.project_id ≠ project_id →
        (∀ c2, c2 ∈ db → c2.id = c1.id → c2.project_id = c1.project_id) →
        ∀ cred, (c1.id, cred) ∉ loadCredentialsMap db project_id opts args) := by
  intro db pid opts args
  have hmain : ∀ id cred, (id, cred) ∈ loadCredentialsMap db pid opts args →
      cred ∈ db ∧ cred.id = id ∧ cred.project_id = pid ∧
      ∃ k v, (k, v) ∈ args ∧ pyDigitInt v = some id ∧
        ∃ o, o ∈ opts ∧ o.name = k ∧ o.option_type = "credential" := by
    intro id cred hmem
    unfold loadCredentialsMap at hmem
    by_cases hids : (credentialIds opts args).isEmpty
    · rw [if_pos hids] at hmem
      exact absurd hmem (List.not_mem_nil _)
    · rw [if_neg hids] at hmem
      obtain ⟨c, hc, heq⟩ := List.mem_map.mp hmem
      obtain ⟨hcdb, hcond⟩ := List.mem_filter.mp hc
      injection heq with h1 h2
      subst h1
      subst h2
      rw [Bool.and_eq_true] at hcond
      obtain ⟨hcontains, hproj⟩ := hcond
      have hproj2 : c.project_id = pid := by simpa using hproj
      have hin : c.id ∈ credentialIds opts args := by simpa using hcontains
      unfold credentialIds at hin
      obtain ⟨l, hl, hidl⟩ := List.mem_flatten.mp hin
      obtain ⟨kv, hkv, hleq⟩ := List.mem_map.mp hl
      rw [← hleq] at hidl
      rcases hpd : pyDigitInt kv.2 with - | n
      · rw [hpd] at hidl
        exact absurd hidl (List.not_mem_nil _)
      · rw [hpd] at hidl
        obtain ⟨o, ho, hoeq⟩ := List.mem_map.mp hidl
        obtain ⟨hodb, hocond⟩ := List.mem_filter.mp ho
        rw [Bool.and_eq_true] at hocond
        refine ⟨hcdb, rfl, hproj2, kv.1, kv.2, hkv, ?_, o, hodb, ?_, ?_⟩
        · rw [hpd, hoeq]
        · simpa using hocond.1
        · simpa using hocond.2
  exact ⟨hmain, fun c1 h1 hne huniq cred hmem => by
    obtain ⟨hcdb, hid, hproj, -⟩ := hmain c1.id cred hmem
    exact hne (((huniq cred hcdb hid).symm).trans hproj)⟩

/-- Witness for claim C3: the scoping theorem applied to a store holding
credential 5 of project 7, a `credential`-typed option `c`, and the
argument `c = "5"`. -/
theorem c3_witness :
    c3cred ∈ [c3cred] ∧ c3cred.id = 5 ∧ c3cred.project_id = 7 ∧
    ∃ k v, (k, v) ∈ [("c", PyVal.str "5")] ∧ pyDigitInt v = some 5 ∧
      ∃ o, o ∈ [c3opt] ∧ o.name = k ∧ o.option_type = "credential" :=
  (c3_credential_scoping [c3cred] 7 [c3opt] [("c", .str "5")]).1 5 c3cred (by
    rw [show loadCredentialsMap [c3cred] 7 [c3opt] [("c", .str "5")] = [(5, c3cred)]
      from rfl]
    exact List.mem_singleton.mpr rfl)

/-- Claim C4 (confirmed).  The runner invokes step executors in strictly
ascending `Step.order` whenever the stored orders are distinct,
regardless of the stored order; and on a run with no error every stored
step is invoked (the trace is a permutation of the stored steps). -/
theorem c4_ascending_order :
    ∀ (fs : List String) (db : List Credential) (exec : ExecOracle) (job : Job)
      (wf : Workflow) (args : List (String × PyVal)) (user_id : Int) (etype : String),
      wf.steps.Pairwise (fun a b => a.order ≠ b.order) →
      (execute_job fs db exec job wf args user_id etype).trace.Pairwise
        (fun a b => a.order < b.order) ∧
      ((execute_job fs db exec job wf args user_id etype).error = Option.none →
        (execute_job fs db exec job wf args user_id etype).trace.Perm wf.steps) := by
  intro fs db exec job wf args user_id etype hdist
  cases hpf : processFileArgs fs (fileOptionNames wf.options) args with
  | error e =>
    rcases e with ⟨msg, tmps⟩
    constructor
    · simp only [execute_job, hpf]
      exact List.Pairwise.nil
    · intro he
      simp only [execute_job, hpf] at he
      exact Option.noConfusion he
  | ok p =>
    rcases p with ⟨pargs, tmps⟩
    rcases hrun : runSteps exec
        (initContext job wf user_id (loadCredentialsMap db job.project_id wf.options pargs))
        initResult (wf.steps.mergeSort stepOrderLE) with ⟨c2, r2, e2, tr⟩
    have htr_pref : tr <+: wf.steps.mergeSort stepOrderLE := by
      have h := runSteps_trace_pref exec (wf.steps.mergeSort stepOrderLE)
        (initContext job wf user_id (loadCredentialsMap db job.project_id wf.options pargs))
        initResult
      rw [hrun] at h
      exact h
    have htrace_pw : tr.Pairwise (fun a b => a.order < b.order) :=
      List.Pairwise.sublist htr_pref.sublist (mergeSort_order_lt_of_distinct wf.steps hdist)
    cases e2 with
    | none =>
      constructor
      · simp only [execute_job, hpf, hrun]
        exact htrace_pw
      · intro _
        simp only [execute_job, hpf, hrun]
        rw [runSteps_none_trace exec _ _ _ _ _ _ hrun]
        exact List.mergeSort_perm wf.steps stepOrderLE
    | some e =>
      constructor
      · simp only [execute_job, hpf, hrun]
        exact htrace_pw
      · intro he
        simp only [execute_job, hpf, hrun] at he
        exact Option.noConfusion he

/-- Witness for claim C4: steps stored with orders [2, 1, 3] execute as
[1, 2, 3]. -/
theorem c4_witness :
    (execute_job [] [] exOracleOk exJob c4wf [] 1 "manual").trace.Pairwise
      (fun a b => a.order < b.order) ∧
    (execute_job [] [] exOracleOk exJob c4wf [] 1 "manual").trace.map
      (fun s => s.order) = [1, 2, 3] := by
  refine ⟨(c4_ascending_order [] [] exOracleOk exJob c4wf [] 1 "manual" (by decide)).1, ?_⟩
  have hms : c4wf.steps.mergeSort stepOrderLE = [c4step 1, c4step 2, c4step 3] := by
    simp [List.mergeSort, List.merge, stepOrderLE, c4wf, c4step]
  simp only [execute_job, hms]
  rfl

/-- Claim C5 (confirmed).  When the steps before `s` all succeed and the executor of `s` raises with message `e`, `execute_job` stops at `s` (the trace
is exactly the successful prefix plus `s`, independent of any later
steps), persists one failure record whose `error_message` is `e` and
whose `output_text` is the `result.text` accumulated up to and including
the failing call, renders the error artifact, and returns the partially
accumulated result. -/
theorem c5_failure_semantics
    (fs : List String) (db : List Credential) (exec : ExecOracle) (job : Job)
    (wf : Workflow) (args : List (String × PyVal)) (user_id : Int) (etype : String)
    (pargs : List (String × PyVal)) (tmps : List String)
    (pre : List Step) (s : Step) (post : List Step) (k : ExecutorKind)
    (ctxp : Context) (rp : RunResult) (ctx2 : Context) (r2 : RunResult) (e : String)
    (hargs : processFileArgs fs (fileOptionNames wf.options) args = .ok (pargs, tmps))
    (hsort : wf.steps.mergeSort stepOrderLE = pre ++ s :: post)
    (hpre : runSteps exec
      (initContext job wf user_id (loadCredentialsMap db job.project_id wf.options pargs))
      initResult pre = (ctxp, rp, Option.none, pre))
    (hk : get_executor s.step_type = .ok k)
    (hfail : exec k (setStepCtx ctxp s) rp = (ctx2, r2, some e)) :
    (execute_job fs db exec job wf args user_id etype).record =
      some { job_id := job.id
             user_id := user_id
             execution_type := etype
             status := "failure"
             output_text := r2.text
             error_message := some e } ∧
    (execute_job fs db exec job wf args user_id etype).trace = pre ++ [s] ∧
    (execute_job fs db exec job wf args user_id etype).error = some e ∧
    (execute_job fs db exec job wf args user_id etype).output =
      some (generate_error_html e) ∧
    (execute_job fs db exec job wf args user_id etype).result = r2 := by
  have hstep : runSteps exec ctxp rp (s :: post) = (ctx2, r2, some e, [s]) := by
    simp only [runSteps, hk, hfail]
  have hr : runSteps exec
      (initContext job wf user_id (loadCredentialsMap db job.project_id wf.options pargs))
      initResult (pre ++ s :: post) = (ctx2, r2, some e, pre ++ [s]) := by
    rw [runSteps_append, hpre]
    simp only [hstep]
  refine ⟨?_, ?_, ?_, ?_, ?_⟩ <;>
    simp only [execute_job, hargs, hsort, hr]

/-- Witness for claim C5: two command steps; the first succeeds and appends
`ok`, the second fails with message `err` after appending `T`; the run
records a failure with the partial text `okT` and the trace is exactly
both steps. -/
theorem c5_witness :
    (execute_job [] [] c5oracle exJob c5wf [] 1 "manual").record =
      some { job_id := exJob.id
             user_id := 1
             execution_type := "manual"
             status := "failure"
             output_text := "okT"
             error_message := some "err" } ∧
    (execute_job [] [] c5oracle exJob c5wf [] 1 "manual").trace = [c5step1, c5step2] := by
  have hsort : c5wf.steps.mergeSort stepOrderLE = [c5step1] ++ c5step2 :: [] := by
    simp [List.mergeSort, List.merge, stepOrderLE, c5wf, c5step1, c5step2]
  have h := c5_failure_semantics [] [] c5oracle exJob c5wf [] 1 "manual" [] []
    [c5step1] c5step2 [] .command
    (setStepCtx (initContext exJob c5wf 1 (loadCredentialsMap [] exJob.project_id
      c5wf.options [])) c5step1)
    { text := "ok", dataset := Option.none, logs := "" }
    (setStepCtx (setStepCtx (initContext exJob c5wf 1 (loadCredentialsMap []
      exJob.project_id c5wf.options [])) c5step1) c5step2)
    { text := "okT", dataset := Option.none, logs := "" }
    "err" rfl hsort rfl rfl rfl
  exact ⟨h.1, h.2.1⟩

/-- Claim C6 (amended).  The output decision of `execute_job`: text
rendering exactly when `dataset` is `None` or the empty string; every
other dataset goes to the table renderer — a *non-empty* list or mapping
yields a `<table>` rendering, while an *empty* list or mapping (being
falsy) yields the fixed no-data placeholder `<div>无数据</div>` instead
of the text rendering. -/
theorem c6_render_decision (r : RunResult) :
    (r.dataset = Option.none → render_output r = generate_text_html r.text) ∧
    (r.dataset = some (.str "") → render_output r = generate_text_html r.text) ∧
    (r.dataset = some (.list []) → render_output r = "<div>无数据</div>") ∧
    (r.dataset = some (.dict []) → render_output r = "<div>无数据</div>") ∧
    (∀ x xs, r.dataset = some (.list (x :: xs)) →
      render_output r = generate_table_html (.list (x :: xs)) ∧
      ("<table" : String).data <+: (render_output r).data) ∧
    (∀ k v kvs, r.dataset = some (.dict ((k, v) :: kvs)) →
      render_output r = generate_table_html (.dict ((k, v) :: kvs)) ∧
      ("<table" : String).data <+: (render_output r).data) := by
  refine ⟨?_, ?_, ?_, ?_, ?_, ?_⟩
  · intro h
    unfold render_output
    rw [h]
  · intro h
    unfold render_output
    rw [h]
    rfl
  · intro h
    unfold render_output
    rw [h]
    rfl
  · intro h
    unfold render_output
    rw [h]
    rfl
  · intro x xs h
    constructor
    · unfold render_output
      rw [h]
    · unfold render_output
      rw [h]
      exact table_starts_tableForList x xs
  · intro k v kvs h
    constructor
    · unfold render_output
      rw [h]
    · unfold render_output
      rw [h]
      exact table_starts_tableForDict ((k, v) :: kvs)

/-- Witness for claim C6: a terminal result with the non-empty dataset
`[1]` renders through the table renderer, and its output starts with
`<table`. -/
theorem c6_witness :
    render_output { text := "ignored", dataset := some (.list [.int 1]), logs := "" } =
      generate_table_html (.list [.int 1]) ∧
    ("<table" : String).data <+:
      (render_output { text := "ignored", dataset := some (.list [.int 1]), logs := "" }).data :=
  (c6_render_decision _).2.2.2.2.1 (.int 1) [] rfl

/-- Counterexample for claim C6.  The claim says an empty-list dataset falls
back to the text rendering; the code instead takes the table branch
(`[] is not None and [] != ""`) and returns the no-data placeholder: a
result with `text = "hello"` and `dataset = []` renders as
`<div>无数据</div>`, not as `<div>hello</div>`. -/
theorem c6_counterexample :
    render_output { text := "hello", dataset := some (.list []), logs := "" } =
      "<div>无数据</div>" ∧
    generate_text_html "hello" = "<div>hello</div>" ∧
    ("<div>无数据</div>" : String) ≠ "<div>hello</div>" :=
  ⟨rfl, rfl, by decide⟩

/-- Claim C1 (amended).  With a database session, `execute_job` writes
exactly one `JobExecution` row for every run that reaches the `try`
block: status `success` with no error message when all steps complete,
status `failure` carrying the raised message otherwise.  A run that
fails while resolving file-typed arguments, however, raises *before*
the `try` block: no row is written and no output is returned. -/
theorem c1_one_record_per_started_run :
    ∀ (fs : List String) (db : List Credential) (exec : ExecOracle) (job : Job)
      (wf : Workflow) (args : List (String × PyVal)) (user_id : Int) (etype : String),
      ((∃ msg tmps, processFileArgs fs (fileOptionNames wf.options) args =
          .error (msg, tmps)) →
        (execute_job fs db exec job wf args user_id etype).record = Option.none ∧
        (execute_job fs db exec job wf args user_id etype).output = Option.none) ∧
      (∀ pargs tmps, processFileArgs fs (fileOptionNames wf.options) args =
          .ok (pargs, tmps) →
        ∃ rec, (execute_job fs db exec job wf args user_id etype).record = some rec ∧
          ((execute_job fs db exec job wf args user_id etype).error = Option.none ∧
              rec.status = "success" ∧ rec.error_message = Option.none ∨
            ∃ e, (execute_job fs db exec job wf args user_id etype).error = some e ∧
              rec.status = "failure" ∧ rec.error_message = some e)) := by
  intro fs db exec job wf args user_id etype
  constructor
  · rintro ⟨msg, tmps, hpf⟩
    constructor <;> simp only [execute_job, hpf]
  · intro pargs tmps hpf
    rcases hrun : runSteps exec
        (initContext job wf user_id (loadCredentialsMap db job.project_id wf.options pargs))
        initResult (wf.steps.mergeSort stepOrderLE) with ⟨c2, r2, e2, tr⟩
    cases e2 with
    | none =>
      refine ⟨{ job_id := job.id
                user_id := user_id
                execution_type := etype
                status := "success"
                output_text := r2.text
                error_message := Option.none },
        by simp only [execute_job, hpf, hrun],
        Or.inl ⟨by simp only [execute_job, hpf, hrun], rfl, rfl⟩⟩
    | some e =>
      refine ⟨{ job_id := job.id
                user_id := user_id
                execution_type := etype
                status := "failure"
                output_text := r2.text
                error_message := some e },
        by simp only [execute_job, hpf, hrun],
        Or.inr ⟨e, by simp only [execute_job, hpf, hrun], rfl, rfl⟩⟩

/-- Witness for claim C1: a run whose file arguments resolve gets exactly one
record; instantiated on an empty workflow with no arguments. -/
theorem c1_witness :
    ∃ rec, (execute_job [] [] exOracleOk exJob c1wfOk [] 1 "manual").record = some rec ∧
      ((execute_job [] [] exOracleOk exJob c1wfOk [] 1 "manual").error = Option.none ∧
          rec.status = "success" ∧ rec.error_message = Option.none ∨
        ∃ e, (execute_job [] [] exOracleOk exJob c1wfOk [] 1 "manual").error = some e ∧
          rec.status = "failure" ∧ rec.error_message = some e) :=
  (c1_one_record_per_started_run [] [] exOracleOk exJob c1wfOk [] 1 "manual").2 [] [] rfl

/-- Counterexample for claim C1.  A run whose second file argument names a
nonexistent path raises before the `try` block: the `ValueError`
propagates and *no* `JobExecution` row is created, contradicting the
claim that such a run also produces exactly one (failure) record. -/
theorem c1_counterexample :
    (execute_job ["/tmp/up1"] [] exOracleOk exJob c1wf
      [("f1", exUpObj), ("f2", .str "/missing")] 1 "manual").record = Option.none ∧
    (execute_job ["/tmp/up1"] [] exOracleOk exJob c1wf
      [("f1", exUpObj), ("f2", .str "/missing")] 1 "manual").error =
      some "文件参数 \x27f2\x27 的路径不存在: /missing" :=
  ⟨rfl, rfl⟩

/-- Claim C8 (amended).  Temp-file accounting of `execute_job` and the
script executors: every run that reaches the `try` block deletes all
file paths collected during argument resolution, on the success and the
failure path alike; each of the shell-script, python-script and cURL
executors creates and deletes its temp script file in lockstep on every
outcome (success, raised error, timeout — and no file at all on the
raises that precede file creation); but a run that fails *during*
argument resolution exits before the cleanup block with the previously
collected paths still on disk. -/
theorem c8_temp_cleanup :
    (∀ (fs : List String) (db : List Credential) (exec : ExecOracle) (job : Job)
      (wf : Workflow) (args : List (String × PyVal)) (user_id : Int) (etype : String)
      (pargs : List (String × PyVal)) (tmps : List String),
      processFileArgs fs (fileOptionNames wf.options) args = .ok (pargs, tmps) →
      (execute_job fs db exec job wf args user_id etype).leaked = []) ∧
    (∀ (fs : List String) (db : List Credential) (exec : ExecOracle) (job : Job)
      (wf : Workflow) (args : List (String × PyVal)) (user_id : Int) (etype : String)
      (msg : String) (tmps : List String),
      processFileArgs fs (fileOptionNames wf.options) args = .error (msg, tmps) →
      (execute_job fs db exec job wf args user_id etype).leaked = tmps ∧
      (execute_job fs db exec job wf args user_id etype).record = Option.none) ∧
    (∀ (path : String) (outcome : ProcOutcome) (ctx : Context) (r : RunResult),
      (shellScriptExecute path outcome ctx r).created =
        (shellScriptExecute path outcome ctx r).deleted) ∧
    (∀ (parse : ProcResult → RunResult → RunResult × Option String) (path : String)
      (outcome : ProcOutcome) (ctx : Context) (r : RunResult),
      (pythonScriptExecute parse path outcome ctx r).created =
        (pythonScriptExecute parse path outcome ctx r).deleted) ∧
    (∀ (fix fmt : String → String) (path : String) (outcome : ProcOutcome)
      (args : List (String × PyVal)) (ctx : Context) (r : RunResult),
      (curlExecute fix fmt path outcome args ctx r).created =
        (curlExecute fix fmt path outcome args ctx r).deleted) := by
  refine ⟨?_, ?_, ?_, ?_, ?_⟩
  · intro fs db exec job wf args user_id etype pargs tmps hpf
    rcases hrun : runSteps exec
        (initContext job wf user_id (loadCredentialsMap db job.project_id wf.options pargs))
        initResult (wf.steps.mergeSort stepOrderLE) with ⟨c2, r2, e2, tr⟩
    cases e2 <;> simp only [execute_job, hpf, hrun]
  · intro fs db exec job wf args user_id etype msg tmps hpf
    constructor <;> simp only [execute_job, hpf]
  · intro path outcome ctx r
    unfold shellScriptExecute
    by_cases hs : dgetStr ctx.step_extension "script" = ""
    · rw [if_pos hs]
    · rw [if_neg hs]
      cases outcome with
      | timedOut => rfl
      | completed p =>
        by_cases hrc : p.returncode ≠ 0
        · simp only [if_pos hrc]
        · simp only [if_neg hrc]
  · intro parse path outcome ctx r
    unfold pythonScriptExecute
    by_cases hs : dgetStr ctx.step_extension "script" = ""
    · rw [if_pos hs]
    · rw [if_neg hs]
      cases outcome with
      | timedOut => rfl
      | completed p =>
        rcases hpp : parse p r with ⟨r2, e2⟩
        simp only [hpp]
        cases e2 <;> rfl
  · intro fix fmt path outcome args ctx r
    unfold curlExecute
    rcases hrc : curlRenderCommand ctx.step_extension args with e | cmd
    · rfl
    · cases outcome with
      | timedOut => rfl
      | completed p =>
        by_cases hret : p.returncode ≠ 0
        · simp only [if_pos hret]
        · simp only [if_neg hret]

/-- Witness for claim C8: a run whose two file arguments both resolve leaks
nothing. -/
theorem c8_witness :
    (execute_job ["/tmp/up1", "/ok"] [] exOracleOk exJob c8wf
      [("f1", c8upObj), ("f2", .str "/ok")] 1 "manual").leaked = [] :=
  (c8_temp_cleanup).1 ["/tmp/up1", "/ok"] [] exOracleOk exJob c8wf
    [("f1", c8upObj), ("f2", .str "/ok")] 1 "manual"
    [("f1", .str "/tmp/up1"), ("f2", .str "/ok")] ["/tmp/up1"] rfl

/-- Counterexample for claim C8.  With the first file argument resolved (the
uploaded path `/tmp/up1` collected into `temp_files`) and the second
failing, `execute_job` raises before its `finally` block: `/tmp/up1`
survives the call, contradicting deletion on every exit path. -/
theorem c8_counterexample :
    (execute_job ["/tmp/up1"] [] exOracleOk exJob c8wf
      [("f1", c8upObj), ("f2", .str "/missing")] 1 "manual").leaked = ["/tmp/up1"] ∧
    (["/tmp/up1"] : List String) ≠ [] :=
  ⟨rfl, by decide⟩

end QuickDeck
